import Mathlib

/-!
# simple-converter: the conversion dispatcher and the HTTP job handler

A shallow embedding of `src/converter.js` and `src/server.js`.

* JavaScript strings are Lean `String`s; the string helpers work on the
  character list `String.data`.
* The functions of Node's `path` module that the program calls (`extname`,
  `basename`, `join`) are modelled in their POSIX flavour.
* The file system is an association list from paths to file contents, threaded
  explicitly through every operation.
* The conversion libraries (document renderer, spreadsheet reader and writer,
  image encoder, PDF parser) are parameters, collected in `Libs`.
-/

namespace SimpleConverter

/-! ## Character-list helpers -/

/-- Split a character list at every occurrence of the separator `sep`; the
result always has at least one piece (`"".split(sep)` is `[""]` in JS). -/
def splitOnChar (sep : Char) : List Char → List (List Char)
  | [] => [[]]
  | c :: cs =>
    if c = sep then [] :: splitOnChar sep cs
    else
      match splitOnChar sep cs with
      | [] => [[c]]
      | seg :: rest => (c :: seg) :: rest

/-- Join pieces with the separator `sep` between consecutive pieces (JS `join`). -/
def joinWith (sep : List Char) : List (List Char) → List Char
  | [] => []
  | [x] => x
  | x :: y :: rest => x ++ sep ++ joinWith sep (y :: rest)

/-! ## JS `toLowerCase`

`String.prototype.toLowerCase` converts the code points of the string with the
Unicode default case conversion: the simple lower-case mappings of the Unicode
Character Database, the one unconditional special mapping (`U+0130`), and the
one context rule that does not depend on the language, `Final_Sigma`. The
tables below are those of Unicode 14. -/

/-- The simple lower-case mappings, as runs `(first, last, step, target)`: the
code points `first`, `first + step`, ... up to `last` map to `target`,
`target + step`, ... in that order. -/
def lowerCaseRuns : List (Nat × Nat × Nat × Nat) :=
  [
    (65, 90, 1, 97), (192, 214, 1, 224), (216, 222, 1, 248), (256, 302, 2, 257), (306, 310, 2, 307),
    (313, 327, 2, 314), (330, 374, 2, 331), (376, 376, 1, 255), (377, 381, 2, 378), (385, 385, 1, 595),
    (386, 388, 2, 387), (390, 390, 1, 596), (391, 391, 1, 392), (393, 394, 1, 598), (395, 395, 1, 396),
    (398, 398, 1, 477), (399, 399, 1, 601), (400, 400, 1, 603), (401, 401, 1, 402), (403, 403, 1, 608),
    (404, 404, 1, 611), (406, 406, 1, 617), (407, 407, 1, 616), (408, 408, 1, 409), (412, 412, 1, 623),
    (413, 413, 1, 626), (415, 415, 1, 629), (416, 420, 2, 417), (422, 422, 1, 640), (423, 423, 1, 424),
    (425, 425, 1, 643), (428, 428, 1, 429), (430, 430, 1, 648), (431, 431, 1, 432), (433, 434, 1, 650),
    (435, 437, 2, 436), (439, 439, 1, 658), (440, 440, 1, 441), (444, 444, 1, 445), (452, 452, 1, 454),
    (453, 453, 1, 454), (455, 455, 1, 457), (456, 456, 1, 457), (458, 458, 1, 460), (459, 475, 2, 460),
    (478, 494, 2, 479), (497, 497, 1, 499), (498, 500, 2, 499), (502, 502, 1, 405), (503, 503, 1, 447),
    (504, 542, 2, 505), (544, 544, 1, 414), (546, 562, 2, 547), (570, 570, 1, 11365), (571, 571, 1, 572),
    (573, 573, 1, 410), (574, 574, 1, 11366), (577, 577, 1, 578), (579, 579, 1, 384), (580, 580, 1, 649),
    (581, 581, 1, 652), (582, 590, 2, 583), (880, 882, 2, 881), (886, 886, 1, 887), (895, 895, 1, 1011),
    (902, 902, 1, 940), (904, 906, 1, 941), (908, 908, 1, 972), (910, 911, 1, 973), (913, 929, 1, 945),
    (932, 939, 1, 964), (975, 975, 1, 983), (984, 1006, 2, 985), (1012, 1012, 1, 952), (1015, 1015, 1, 1016),
    (1017, 1017, 1, 1010), (1018, 1018, 1, 1019), (1021, 1023, 1, 891), (1024, 1039, 1, 1104), (1040, 1071, 1, 1072),
    (1120, 1152, 2, 1121), (1162, 1214, 2, 1163), (1216, 1216, 1, 1231), (1217, 1229, 2, 1218), (1232, 1326, 2, 1233),
    (1329, 1366, 1, 1377), (4256, 4293, 1, 11520), (4295, 4295, 1, 11559), (4301, 4301, 1, 11565), (5024, 5103, 1, 43888),
    (5104, 5109, 1, 5112), (7312, 7354, 1, 4304), (7357, 7359, 1, 4349), (7680, 7828, 2, 7681), (7838, 7838, 1, 223),
    (7840, 7934, 2, 7841), (7944, 7951, 1, 7936), (7960, 7965, 1, 7952), (7976, 7983, 1, 7968), (7992, 7999, 1, 7984),
    (8008, 8013, 1, 8000), (8025, 8031, 2, 8017), (8040, 8047, 1, 8032), (8072, 8079, 1, 8064), (8088, 8095, 1, 8080),
    (8104, 8111, 1, 8096), (8120, 8121, 1, 8112), (8122, 8123, 1, 8048), (8124, 8124, 1, 8115), (8136, 8139, 1, 8050),
    (8140, 8140, 1, 8131), (8152, 8153, 1, 8144), (8154, 8155, 1, 8054), (8168, 8169, 1, 8160), (8170, 8171, 1, 8058),
    (8172, 8172, 1, 8165), (8184, 8185, 1, 8056), (8186, 8187, 1, 8060), (8188, 8188, 1, 8179), (8486, 8486, 1, 969),
    (8490, 8490, 1, 107), (8491, 8491, 1, 229), (8498, 8498, 1, 8526), (8544, 8559, 1, 8560), (8579, 8579, 1, 8580),
    (9398, 9423, 1, 9424), (11264, 11311, 1, 11312), (11360, 11360, 1, 11361), (11362, 11362, 1, 619), (11363, 11363, 1, 7549),
    (11364, 11364, 1, 637), (11367, 11371, 2, 11368), (11373, 11373, 1, 593), (11374, 11374, 1, 625), (11375, 11375, 1, 592),
    (11376, 11376, 1, 594), (11378, 11378, 1, 11379), (11381, 11381, 1, 11382), (11390, 11391, 1, 575), (11392, 11490, 2, 11393),
    (11499, 11501, 2, 11500), (11506, 11506, 1, 11507), (42560, 42604, 2, 42561), (42624, 42650, 2, 42625), (42786, 42798, 2, 42787),
    (42802, 42862, 2, 42803), (42873, 42875, 2, 42874), (42877, 42877, 1, 7545), (42878, 42886, 2, 42879), (42891, 42891, 1, 42892),
    (42893, 42893, 1, 613), (42896, 42898, 2, 42897), (42902, 42920, 2, 42903), (42922, 42922, 1, 614), (42923, 42923, 1, 604),
    (42924, 42924, 1, 609), (42925, 42925, 1, 620), (42926, 42926, 1, 618), (42928, 42928, 1, 670), (42929, 42929, 1, 647),
    (42930, 42930, 1, 669), (42931, 42931, 1, 43859), (42932, 42946, 2, 42933), (42948, 42948, 1, 42900), (42949, 42949, 1, 642),
    (42950, 42950, 1, 7566), (42951, 42953, 2, 42952), (42960, 42960, 1, 42961), (42966, 42968, 2, 42967), (42997, 42997, 1, 42998),
    (65313, 65338, 1, 65345), (66560, 66599, 1, 66600), (66736, 66771, 1, 66776), (66928, 66938, 1, 66967), (66940, 66954, 1, 66979),
    (66956, 66962, 1, 66995), (66964, 66965, 1, 67003), (68736, 68786, 1, 68800), (71840, 71871, 1, 71872), (93760, 93791, 1, 93792),
    (125184, 125217, 1, 125218)]

/-- The code points with the property `Case_Ignorable`, as ranges `(first, last)`. -/
def caseIgnorableRanges : List (Nat × Nat) :=
  [
    (39, 39), (46, 46), (58, 58), (94, 94), (96, 96), (168, 168), (173, 173),
    (175, 175), (180, 180), (183, 184), (688, 879), (884, 885), (890, 890), (900, 901),
    (903, 903), (1155, 1161), (1369, 1369), (1375, 1375), (1425, 1469), (1471, 1471), (1473, 1474),
    (1476, 1477), (1479, 1479), (1524, 1524), (1536, 1541), (1552, 1562), (1564, 1564), (1600, 1600),
    (1611, 1631), (1648, 1648), (1750, 1757), (1759, 1768), (1770, 1773), (1807, 1807), (1809, 1809),
    (1840, 1866), (1958, 1968), (2027, 2037), (2042, 2042), (2045, 2045), (2070, 2093), (2137, 2139),
    (2184, 2184), (2192, 2193), (2200, 2207), (2249, 2306), (2362, 2362), (2364, 2364), (2369, 2376),
    (2381, 2381), (2385, 2391), (2402, 2403), (2417, 2417), (2433, 2433), (2492, 2492), (2497, 2500),
    (2509, 2509), (2530, 2531), (2558, 2558), (2561, 2562), (2620, 2620), (2625, 2626), (2631, 2632),
    (2635, 2637), (2641, 2641), (2672, 2673), (2677, 2677), (2689, 2690), (2748, 2748), (2753, 2757),
    (2759, 2760), (2765, 2765), (2786, 2787), (2810, 2815), (2817, 2817), (2876, 2876), (2879, 2879),
    (2881, 2884), (2893, 2893), (2901, 2902), (2914, 2915), (2946, 2946), (3008, 3008), (3021, 3021),
    (3072, 3072), (3076, 3076), (3132, 3132), (3134, 3136), (3142, 3144), (3146, 3149), (3157, 3158),
    (3170, 3171), (3201, 3201), (3260, 3260), (3263, 3263), (3270, 3270), (3276, 3277), (3298, 3299),
    (3328, 3329), (3387, 3388), (3393, 3396), (3405, 3405), (3426, 3427), (3457, 3457), (3530, 3530),
    (3538, 3540), (3542, 3542), (3633, 3633), (3636, 3642), (3654, 3662), (3761, 3761), (3764, 3772),
    (3782, 3782), (3784, 3789), (3864, 3865), (3893, 3893), (3895, 3895), (3897, 3897), (3953, 3966),
    (3968, 3972), (3974, 3975), (3981, 3991), (3993, 4028), (4038, 4038), (4141, 4144), (4146, 4151),
    (4153, 4154), (4157, 4158), (4184, 4185), (4190, 4192), (4209, 4212), (4226, 4226), (4229, 4230),
    (4237, 4237), (4253, 4253), (4348, 4348), (4957, 4959), (5906, 5908), (5938, 5939), (5970, 5971),
    (6002, 6003), (6068, 6069), (6071, 6077), (6086, 6086), (6089, 6099), (6103, 6103), (6109, 6109),
    (6155, 6159), (6211, 6211), (6277, 6278), (6313, 6313), (6432, 6434), (6439, 6440), (6450, 6450),
    (6457, 6459), (6679, 6680), (6683, 6683), (6742, 6742), (6744, 6750), (6752, 6752), (6754, 6754),
    (6757, 6764), (6771, 6780), (6783, 6783), (6823, 6823), (6832, 6862), (6912, 6915), (6964, 6964),
    (6966, 6970), (6972, 6972), (6978, 6978), (7019, 7027), (7040, 7041), (7074, 7077), (7080, 7081),
    (7083, 7085), (7142, 7142), (7144, 7145), (7149, 7149), (7151, 7153), (7212, 7219), (7222, 7223),
    (7288, 7293), (7376, 7378), (7380, 7392), (7394, 7400), (7405, 7405), (7412, 7412), (7416, 7417),
    (7468, 7530), (7544, 7544), (7579, 7679), (8125, 8125), (8127, 8129), (8141, 8143), (8157, 8159),
    (8173, 8175), (8189, 8190), (8203, 8207), (8216, 8217), (8228, 8228), (8231, 8231), (8234, 8238),
    (8288, 8292), (8294, 8303), (8305, 8305), (8319, 8319), (8336, 8348), (8400, 8432), (11388, 11389),
    (11503, 11505), (11631, 11631), (11647, 11647), (11744, 11775), (11823, 11823), (12293, 12293), (12330, 12333),
    (12337, 12341), (12347, 12347), (12441, 12446), (12540, 12542), (40981, 40981), (42232, 42237), (42508, 42508),
    (42607, 42610), (42612, 42621), (42623, 42623), (42652, 42655), (42736, 42737), (42752, 42785), (42864, 42864),
    (42888, 42890), (42994, 42996), (43000, 43001), (43010, 43010), (43014, 43014), (43019, 43019), (43045, 43046),
    (43052, 43052), (43204, 43205), (43232, 43249), (43263, 43263), (43302, 43309), (43335, 43345), (43392, 43394),
    (43443, 43443), (43446, 43449), (43452, 43453), (43471, 43471), (43493, 43494), (43561, 43566), (43569, 43570),
    (43573, 43574), (43587, 43587), (43596, 43596), (43632, 43632), (43644, 43644), (43696, 43696), (43698, 43700),
    (43703, 43704), (43710, 43711), (43713, 43713), (43741, 43741), (43756, 43757), (43763, 43764), (43766, 43766),
    (43867, 43871), (43881, 43883), (44005, 44005), (44008, 44008), (44013, 44013), (64286, 64286), (64434, 64450),
    (65024, 65039), (65043, 65043), (65056, 65071), (65106, 65106), (65109, 65109), (65279, 65279), (65287, 65287),
    (65294, 65294), (65306, 65306), (65342, 65342), (65344, 65344), (65392, 65392), (65438, 65439), (65507, 65507),
    (65529, 65531), (66045, 66045), (66272, 66272), (66422, 66426), (67456, 67461), (67463, 67504), (67506, 67514),
    (68097, 68099), (68101, 68102), (68108, 68111), (68152, 68154), (68159, 68159), (68325, 68326), (68900, 68903),
    (69291, 69292), (69446, 69456), (69506, 69509), (69633, 69633), (69688, 69702), (69744, 69744), (69747, 69748),
    (69759, 69761), (69811, 69814), (69817, 69818), (69821, 69821), (69826, 69826), (69837, 69837), (69888, 69890),
    (69927, 69931), (69933, 69940), (70003, 70003), (70016, 70017), (70070, 70078), (70089, 70092), (70095, 70095),
    (70191, 70193), (70196, 70196), (70198, 70199), (70206, 70206), (70367, 70367), (70371, 70378), (70400, 70401),
    (70459, 70460), (70464, 70464), (70502, 70508), (70512, 70516), (70712, 70719), (70722, 70724), (70726, 70726),
    (70750, 70750), (70835, 70840), (70842, 70842), (70847, 70848), (70850, 70851), (71090, 71093), (71100, 71101),
    (71103, 71104), (71132, 71133), (71219, 71226), (71229, 71229), (71231, 71232), (71339, 71339), (71341, 71341),
    (71344, 71349), (71351, 71351), (71453, 71455), (71458, 71461), (71463, 71467), (71727, 71735), (71737, 71738),
    (71995, 71996), (71998, 71998), (72003, 72003), (72148, 72151), (72154, 72155), (72160, 72160), (72193, 72202),
    (72243, 72248), (72251, 72254), (72263, 72263), (72273, 72278), (72281, 72283), (72330, 72342), (72344, 72345),
    (72752, 72758), (72760, 72765), (72767, 72767), (72850, 72871), (72874, 72880), (72882, 72883), (72885, 72886),
    (73009, 73014), (73018, 73018), (73020, 73021), (73023, 73029), (73031, 73031), (73104, 73105), (73109, 73109),
    (73111, 73111), (73459, 73460), (78896, 78904), (92912, 92916), (92976, 92982), (92992, 92995), (94031, 94031),
    (94095, 94111), (94176, 94177), (94179, 94180), (110576, 110579), (110581, 110587), (110589, 110590), (113821, 113822),
    (113824, 113827), (118528, 118573), (118576, 118598), (119143, 119145), (119155, 119170), (119173, 119179), (119210, 119213),
    (119362, 119364), (121344, 121398), (121403, 121452), (121461, 121461), (121476, 121476), (121499, 121503), (121505, 121519),
    (122880, 122886), (122888, 122904), (122907, 122913), (122915, 122916), (122918, 122922), (123184, 123197), (123566, 123566),
    (123628, 123631), (125136, 125142), (125252, 125259), (127995, 127999), (917505, 917505), (917536, 917631), (917760, 917999)]

/-- The code points with the property `Cased` that are not `Case_Ignorable`, as
ranges `(first, last)`. -/
def casedRanges : List (Nat × Nat) :=
  [
    (65, 90), (97, 122), (170, 170), (181, 181), (186, 186), (192, 214), (216, 246),
    (248, 442), (444, 447), (452, 659), (661, 687), (880, 883), (886, 887), (891, 893),
    (895, 895), (902, 902), (904, 906), (908, 908), (910, 929), (931, 1013), (1015, 1153),
    (1162, 1327), (1329, 1366), (1376, 1416), (4256, 4293), (4295, 4295), (4301, 4301), (4304, 4346),
    (4349, 4351), (5024, 5109), (5112, 5117), (7296, 7304), (7312, 7354), (7357, 7359), (7424, 7467),
    (7531, 7543), (7545, 7578), (7680, 7957), (7960, 7965), (7968, 8005), (8008, 8013), (8016, 8023),
    (8025, 8025), (8027, 8027), (8029, 8029), (8031, 8061), (8064, 8116), (8118, 8124), (8126, 8126),
    (8130, 8132), (8134, 8140), (8144, 8147), (8150, 8155), (8160, 8172), (8178, 8180), (8182, 8188),
    (8450, 8450), (8455, 8455), (8458, 8467), (8469, 8469), (8473, 8477), (8484, 8484), (8486, 8486),
    (8488, 8488), (8490, 8493), (8495, 8500), (8505, 8505), (8508, 8511), (8517, 8521), (8526, 8526),
    (8544, 8575), (8579, 8580), (9398, 9449), (11264, 11387), (11390, 11492), (11499, 11502), (11506, 11507),
    (11520, 11557), (11559, 11559), (11565, 11565), (42560, 42605), (42624, 42651), (42786, 42863), (42865, 42887),
    (42891, 42894), (42896, 42954), (42960, 42961), (42963, 42963), (42965, 42969), (42997, 42998), (43002, 43002),
    (43824, 43866), (43872, 43880), (43888, 43967), (64256, 64262), (64275, 64279), (65313, 65338), (65345, 65370),
    (66560, 66639), (66736, 66771), (66776, 66811), (66928, 66938), (66940, 66954), (66956, 66962), (66964, 66965),
    (66967, 66977), (66979, 66993), (66995, 67001), (67003, 67004), (68736, 68786), (68800, 68850), (71840, 71903),
    (93760, 93823), (119808, 119892), (119894, 119964), (119966, 119967), (119970, 119970), (119973, 119974), (119977, 119980),
    (119982, 119993), (119995, 119995), (119997, 120003), (120005, 120069), (120071, 120074), (120077, 120084), (120086, 120092),
    (120094, 120121), (120123, 120126), (120128, 120132), (120134, 120134), (120138, 120144), (120146, 120485), (120488, 120512),
    (120514, 120538), (120540, 120570), (120572, 120596), (120598, 120628), (120630, 120654), (120656, 120686), (120688, 120712),
    (120714, 120744), (120746, 120770), (120772, 120779), (122624, 122633), (122635, 122654), (125184, 125251), (127280, 127305),
    (127312, 127337), (127344, 127369)]

/-- Whether `n` lies in one of the ranges. -/
def inRanges (ranges : List (Nat × Nat)) (n : Nat) : Bool :=
  ranges.any fun r => decide (r.1 ≤ n) && decide (n ≤ r.2)

/-- Whether the character is case-ignorable. -/
def isCaseIgnorable (c : Char) : Bool := inRanges caseIgnorableRanges c.toNat

/-- Whether a character that is not case-ignorable is cased. -/
def isCased (c : Char) : Bool := inRanges casedRanges c.toNat

/-- The lower-case form of a character other than the capital sigma: `U+0130`
becomes `i` followed by the combining dot above, a character of a run becomes
its target, any other character stays. -/
def lowerChar (c : Char) : List Char :=
  if c.toNat = 0x130 then ['i', Char.ofNat 0x307]
  else
    match lowerCaseRuns.find? fun r =>
        decide (r.1 ≤ c.toNat) && decide (c.toNat ≤ r.2.1) &&
          decide ((c.toNat - r.1) % r.2.2.1 = 0) with
    | some r => [Char.ofNat (r.2.2.2 + (c.toNat - r.1))]
    | none => [c]

/-- Whether the first character of `cs` that is not case-ignorable is cased. -/
def casedNext (cs : List Char) : Bool :=
  match cs.dropWhile isCaseIgnorable with
  | c :: _ => isCased c
  | [] => false

/-- The Greek capital letter sigma, `U+03A3`. -/
def capitalSigma : Char := Char.ofNat 0x3A3

/-- Lower-case the characters of a list, given the characters before it, nearest
first. A capital sigma becomes the final sigma `U+03C2` when a cased letter
precedes it and none follows it, case-ignorable characters skipped on both
sides, and the small sigma `U+03C3` otherwise. -/
def lowerFrom (beforeRev : List Char) : List Char → List Char
  | [] => []
  | c :: rest =>
    (if c = capitalSigma then
      (if casedNext beforeRev && !casedNext rest then [Char.ofNat 0x3C2] else [Char.ofNat 0x3C3])
    else lowerChar c) ++ lowerFrom (c :: beforeRev) rest

/-- JS `String.prototype.toLowerCase`. -/
def toLowerCase (s : String) : String := ⟨lowerFrom [] s.data⟩

/-- JS `s.replace('.', '')`: remove the first `.` of the string, if any. -/
def eraseFirstDot (s : String) : String := ⟨s.data.erase '.'⟩

/-! ## Node `path` (POSIX) -/

/-- The path components between slashes, empty ones (from leading, trailing or
doubled slashes) dropped. -/
def components (p : List Char) : List (List Char) :=
  (splitOnChar '/' p).filter (fun seg => seg ≠ [])

/-- The last component of a path, trailing slashes ignored; empty when the path
has no component. -/
def lastComponent (p : List Char) : List Char :=
  (components p).getLast?.getD []

/-- The slashes at the end of a path. -/
def trailingSlashes (p : List Char) : List Char :=
  (p.reverse.takeWhile (fun c => c = '/'))

/-- The extension of a single path component: the part from its last `.` on,
empty when the component has no `.`, when its only `.` is its first character,
or when the component is `..`. -/
def extOfComponent (base : List Char) : List Char :=
  let rev := base.reverse
  let tailRev := rev.takeWhile (fun c => c ≠ '.')
  match rev.dropWhile (fun c => c ≠ '.') with
  | [] => []
  | _ :: beforeRev =>
    if beforeRev = [] then []
    else if base = ['.', '.'] then []
    else '.' :: tailRev.reverse

/-- Node `path.extname(p)`. -/
def extname (p : String) : String := ⟨extOfComponent (lastComponent p.data)⟩

/-- Node `path.basename(p, suffix)`; `suffix = ""` stands for the one-argument
call. When the last component ends with `suffix` and is longer than it, the
suffix is removed. When the whole path equals the suffix the result is empty,
and when the component is shorter than the suffix and matches its end, Node
returns the rest of the path from that component on, trailing slashes included. -/
def basename (p : String) (suffix : String) : String :=
  let base := lastComponent p.data
  if suffix.data ≠ [] ∧ suffix.data.length ≤ p.data.length then
    if suffix = p then ""
    else if suffix.data.length < base.length ∧ suffix.data.isSuffixOf base then
      ⟨base.take (base.length - suffix.data.length)⟩
    else if base.length < suffix.data.length ∧ base.isSuffixOf suffix.data then
      ⟨base ++ trailingSlashes p.data⟩
    else ⟨base⟩
  else ⟨base⟩

/-- One step of Node's `normalizeString`: `stack` holds the segments kept so
far, last one first. Empty and `.` segments are skipped, `..` removes the
previous segment unless there is none or it is `..` itself, in which case it is
kept only when `allowAboveRoot`. -/
def normalizeStep (allowAboveRoot : Bool) (stack : List (List Char)) (seg : List Char) :
    List (List Char) :=
  if seg = [] ∨ seg = ['.'] then stack
  else if seg = ['.', '.'] then
    match stack with
    | top :: rest =>
      if top ≠ ['.', '.'] then rest
      else if allowAboveRoot then seg :: stack else stack
    | [] => if allowAboveRoot then [seg] else []
  else seg :: stack

/-- Node's `normalizeString(path, allowAboveRoot, '/')`, as the list of kept segments. -/
def normalizeSegments (allowAboveRoot : Bool) (p : List Char) : List (List Char) :=
  ((splitOnChar '/' p).foldl (normalizeStep allowAboveRoot) []).reverse

/-- Node `path.normalize(p)`. -/
def normalize (p : String) : String :=
  if p.data = [] then "."
  else
    let isAbsolute := p.data.head? = some '/'
    let trailingSeparator := p.data.getLast? = some '/'
    let body := joinWith ['/'] (normalizeSegments (!decide isAbsolute) p.data)
    if body = [] then
      if isAbsolute then "/" else if trailingSeparator then "./" else "."
    else
      let body := if trailingSeparator then body ++ ['/'] else body
      if isAbsolute then ⟨'/' :: body⟩ else ⟨body⟩

/-- Node `path.join(a, b)`: the non-empty arguments joined by `/`, then normalised. -/
def join (a b : String) : String :=
  if a.data = [] then (if b.data = [] then "." else normalize b)
  else if b.data = [] then normalize a
  else normalize (a ++ "/" ++ b)

/-- The path directly inside `dir` with file name `name`: the normalised
segments of `dir` followed by `name` as the last segment. -/
def childPath (dir name : String) : String :=
  let isAbsolute := dir.data.head? = some '/'
  ⟨(if isAbsolute then ['/'] else []) ++
    joinWith ['/'] (normalizeSegments (!decide isAbsolute) dir.data ++ [name.data])⟩

/-! ## Files, errors and the delegated libraries -/

/-- File contents, as a list of bytes. -/
abbrev Data := List Nat

/-- The file system: the files that exist, newest binding first. -/
abbrev FS := List (String × Data)

/-- The errors `convertFile` can be rejected with. All of them are plain JS
`Error`s; the constructor records where the error was raised. -/
inductive ConvError where
  /-- The `throw new Error(...)` that ends `convertFile`. -/
  | unsupported (ext targetFormat : String)
  /-- An error raised inside a delegated conversion library. -/
  | library (message : String)
  /-- An error raised by `fs` (the file cannot be read). -/
  | io (message : String)
  deriving DecidableEq, Repr

deriving instance DecidableEq for Except

/-- The `message` property of the error. -/
def ConvError.message : ConvError → String
  | .unsupported ext targetFormat =>
    "Conversion from " ++ ext ++ " to " ++ targetFormat ++ " not supported in this prototype."
  | .library message => message
  | .io message => message

/-- Whether a string is a file name: not empty, without a slash, and neither
`.` nor `..`. -/
def isFileName (name : String) : Bool :=
  decide (name.data ≠ [] ∧ '/' ∉ name.data ∧ name.data ≠ ['.'] ∧ name.data ≠ ['.', '.'])

/-- Whether a path can name a regular file: it does not end with a slash and
its last component is a file name. Any other path names a directory or nothing. -/
def namesFile (path : String) : Bool :=
  decide (path.data.getLast? ≠ some '/') && isFileName ⟨lastComponent path.data⟩

/-- `fs.readFile(path)`: the file's contents; an error when the path names a
directory or when no such file exists. -/
def readFile (fs : FS) (path : String) : Except ConvError Data :=
  if namesFile path then
    match fs.lookup path with
    | some data => .ok data
    | none => .error (.io ("ENOENT: no such file or directory, open " ++ path))
  else .error (.io ("EISDIR: illegal operation on a directory, open " ++ path))

/-- `fs.writeFile(path, data)`: create or replace the file. The output directory
is taken to exist and to be writable, so the write itself does not fail. -/
def writeFile (fs : FS) (path : String) (data : Data) : FS := (path, data) :: fs

/-- A cell of `row.values.slice(1)`. -/
inductive Cell where
  /-- A hole of the sparse array (a column without a value). -/
  | hole
  | undefined
  | null
  /-- Any other value `v`, carried as its string form `String(v)`. -/
  | value (str : String)
  deriving DecidableEq, Repr

/-- A worksheet as `eachSheet` and `eachRow` present it: its `sheetId` and, for
each row that has values, `row.values.slice(1)`. -/
structure Worksheet where
  id : Nat
  name : String
  rows : List (List Cell)
  deriving DecidableEq, Repr

/-- A workbook: its worksheets in `eachSheet` order. -/
structure Workbook where
  sheets : List Worksheet
  deriving DecidableEq, Repr

/-- The delegated libraries and codecs, black boxes for the dispatcher. A
library error is returned as its message. -/
structure Libs where
  /-- Library `libre.convert(docBuf, ext, undefined, cb)`. -/
  libreConvert : Data → String → Except String Data
  /-- Parsing done by `workbook.xlsx.readFile`. -/
  xlsxRead : Data → Except String Workbook
  /-- Serialisation done by `workbook.xlsx.writeFile`. -/
  xlsxWrite : Workbook → Except String Data
  /-- Call `sharp(inputPath).toFormat(format).toFile(outPath)`, given the input
  path, the input file's contents, the format and the output path. -/
  sharp : String → Data → String → String → Except String Data
  /-- Call `PDFDocument.load(data)` followed by `getPageCount()`. -/
  pdfLoad : Data → Except String Nat
  /-- Decoding of file contents by `fs.readFile(path, 'utf8')`. -/
  utf8Decode : Data → String
  /-- Encoding of a string by `fs.writeFile(path, string)`. -/
  utf8Encode : String → Data

/-- The conversion strategies of the dispatcher. -/
inductive Strategy where
  | docToPdf
  | xlsxToCsv
  | csvToXlsx
  | image
  | pdfStub
  | passThrough
  deriving DecidableEq, Repr

/-- What the caller of `await convertFile(...)` observes when the promise
settles. -/
structure Outcome where
  /-- The array the promise resolved with, as it is at that moment, or the
  error it was rejected with. -/
  result : Except ConvError (List String)
  /-- The file system at that moment. -/
  fs : FS
  /-- The paths written so far, in order. -/
  written : List String
  /-- Writes that were started inside a callback and are still in flight: the
  contents are not in the file yet and the path is not in the returned array
  yet. -/
  pending : List (String × Data)
  /-- The strategy function that was invoked, if any. -/
  strategy : Option Strategy

/-- An outcome that rejects with `e` and leaves the file system as it was. -/
def Outcome.fail (fs : FS) (s : Option Strategy) (e : ConvError) : Outcome :=
  { result := .error e, fs := fs, written := [], pending := [], strategy := s }

/-- An outcome that has written `data` to `outPath` and resolves with `[outPath]`. -/
def Outcome.wrote (fs : FS) (s : Strategy) (outPath : String) (data : Data) : Outcome :=
  { result := .ok [outPath], fs := writeFile fs outPath data, written := [outPath],
    pending := [], strategy := some s }

/-- Every path the call writes, the writes still in flight included. -/
def Outcome.allWritten (o : Outcome) : List String := o.written ++ o.pending.map Prod.fst

/-- The state once the event loop has drained: the writes in flight are done,
taken in the order in which they were started, and their paths have been
pushed onto the returned array. -/
def Outcome.settle (o : Outcome) : Outcome :=
  { o with
    result := o.result.map (fun paths => paths ++ o.pending.map Prod.fst)
    fs := o.pending.foldl (fun fs w => writeFile fs w.1 w.2) o.fs
    written := o.written ++ o.pending.map Prod.fst
    pending := [] }

/-! ## CSV text -/

/-- The double-quote character. -/
def dquote : Char := Char.ofNat 34

/-- JS `s.replace(/"/g, '""')` on a character list: every double quote is doubled. -/
def doubleQuotes : List Char → List Char
  | [] => []
  | c :: cs => if c = dquote then dquote :: dquote :: doubleQuotes cs else c :: doubleQuotes cs

/-- One field of a CSV line, the callback
`v => (v==null ? '' : '"' + String(v).replace(/"/g,'""') + '"')` followed by what
`join` makes of the entry: `null` and `undefined` give the empty string, and so
does a hole (which `map` skips and `join` renders as empty). -/
def csvField : Cell → String
  | .value str => ⟨dquote :: (doubleQuotes str.data ++ [dquote])⟩
  | _ => ""

/-- The CSV text of a sheet: `rows.map(r => r.map(...).join(',')).join('\n')`. -/
def sheetCsv (rows : List (List Cell)) : String :=
  ⟨joinWith ['\n'] (rows.map fun r => joinWith [','] (r.map fun v => (csvField v).data))⟩

/-- The white space and line terminators that JS `trim` removes. -/
def isJsWhitespace (c : Char) : Bool :=
  c.toNat ∈ [0x09, 0x0A, 0x0B, 0x0C, 0x0D, 0x20, 0xA0, 0x1680, 0x2028, 0x2029, 0x202F,
    0x205F, 0x3000, 0xFEFF] || (0x2000 ≤ c.toNat && c.toNat ≤ 0x200A)

/-- JS `String.prototype.trim`. -/
def trim (s : String) : String :=
  ⟨((s.data.dropWhile isJsWhitespace).reverse.dropWhile isJsWhitespace).reverse⟩

/-- Remove one carriage return from the end of a piece. -/
def dropTrailingCR (piece : List Char) : List Char :=
  if piece.getLast? = some '\r' then piece.dropLast else piece

/-- Given the pieces between line feeds, give each piece that is followed by a
line feed (all but the last) to the `\r?` of the separator. -/
def stripCRs : List (List Char) → List (List Char)
  | [] => []
  | [last] => [last]
  | piece :: next :: rest => dropTrailingCR piece :: stripCRs (next :: rest)

/-- JS `text.split(/\r?\n/)` on a character list. -/
def splitLines (text : List Char) : List (List Char) :=
  stripCRs (splitOnChar '\n' text)

/-- The rows `text.split(/\r?\n/).map(r => r.split(','))` of a CSV text. -/
def csvRows (text : String) : List (List String) :=
  (splitLines text.data).map fun r => (splitOnChar ',' r).map String.mk

/-! ## The conversion strategies (`src/converter.js`) -/

/-- Strategy `convertDocxToPdf(inputPath, outputDir)`. -/
def convertDocxToPdf (L : Libs) (fs : FS) (inputPath outputDir : String) : Outcome :=
  match readFile fs inputPath with
  | .error e => Outcome.fail fs (some .docToPdf) e
  | .ok docBuf =>
    match L.libreConvert docBuf ".pdf" with
    | .error err => Outcome.fail fs (some .docToPdf) (.library err)
    | .ok done =>
      let outPath := join outputDir (basename inputPath (extname inputPath) ++ ".pdf")
      Outcome.wrote fs .docToPdf outPath done

/-- The output path of one sheet in `convertXlsxToCsv`. -/
def sheetOutPath (inputPath outputDir : String) (sheetId : Nat) : String :=
  join outputDir (basename inputPath (extname inputPath) ++ "_" ++ toString sheetId ++ ".csv")

/-- Strategy `convertXlsxToCsv(inputPath, outputDir)`. `eachSheet` calls its callback
synchronously, once per sheet. The callback is an `async` function: it runs up
to `await fs.writeFile(outPath, csv)`, where the write is started and the
callback is suspended, `outFiles.push(outPath)` still to come. Nothing awaits
the callbacks, so `return outFiles` resolves with the array as it is then,
empty, and the caller resumes on a microtask, before any write completes. -/
def convertXlsxToCsv (L : Libs) (fs : FS) (inputPath outputDir : String) : Outcome :=
  match readFile fs inputPath with
  | .error e => Outcome.fail fs (some .xlsxToCsv) e
  | .ok data =>
    match L.xlsxRead data with
    | .error err => Outcome.fail fs (some .xlsxToCsv) (.library err)
    | .ok workbook =>
      { result := .ok []
        fs := fs
        written := []
        pending := workbook.sheets.map fun worksheet =>
          (sheetOutPath inputPath outputDir worksheet.id,
            L.utf8Encode (sheetCsv worksheet.rows))
        strategy := some .xlsxToCsv }

/-- The workbook `convertCsvToXlsx` builds: one worksheet `Sheet1` with a row
per CSV row, every field stored as a string cell. -/
def csvWorkbook (rows : List (List String)) : Workbook :=
  { sheets := [{ id := 1, name := "Sheet1", rows := rows.map fun r => r.map Cell.value }] }

/-- Strategy `convertCsvToXlsx(inputPath, outputDir)`. -/
def convertCsvToXlsx (L : Libs) (fs : FS) (inputPath outputDir : String) : Outcome :=
  match readFile fs inputPath with
  | .error e => Outcome.fail fs (some .csvToXlsx) e
  | .ok data =>
    let text := trim (L.utf8Decode data)
    let rows := csvRows text
    let outPath := join outputDir (basename inputPath (extname inputPath) ++ ".xlsx")
    match L.xlsxWrite (csvWorkbook rows) with
    | .error err => Outcome.fail fs (some .csvToXlsx) (.library err)
    | .ok bytes => Outcome.wrote fs .csvToXlsx outPath bytes

/-- Strategy `convertImage(inputPath, format, outputDir)`. -/
def convertImage (L : Libs) (fs : FS) (inputPath format outputDir : String) : Outcome :=
  let outName := basename inputPath (extname inputPath) ++ "." ++ format
  let outPath := join outputDir outName
  match readFile fs inputPath with
  | .error e => Outcome.fail fs (some .image) e
  | .ok data =>
    match L.sharp inputPath data format outPath with
    | .error err => Outcome.fail fs (some .image) (.library err)
    | .ok encoded => Outcome.wrote fs .image outPath encoded

/-- Strategy `pdfToImages(inputPath, outputDir)`: the PDF is loaded and then
written as it is. -/
def pdfToImages (L : Libs) (fs : FS) (inputPath outputDir : String) : Outcome :=
  match readFile fs inputPath with
  | .error e => Outcome.fail fs (some .pdfStub) e
  | .ok data =>
    match L.pdfLoad data with
    | .error err => Outcome.fail fs (some .pdfStub) (.library err)
    | .ok _count =>
      let outPath := join outputDir (basename inputPath "")
      Outcome.wrote fs .pdfStub outPath data

/-- The fallback of `convertFile`: `fs.copyFile(inputPath, outPath)`. -/
def copyThrough (fs : FS) (inputPath outputDir : String) : Outcome :=
  let outPath := join outputDir (basename inputPath "")
  match readFile fs inputPath with
  | .error e => Outcome.fail fs (some .passThrough) e
  | .ok data => Outcome.wrote fs .passThrough outPath data

/-- Dispatcher `convertFile(inputPath, targetFormat, outputDir)`. -/
def convertFile (L : Libs) (fs : FS) (inputPath targetFormat outputDir : String) : Outcome :=
  let ext := toLowerCase (extname inputPath)
  if ext ∈ [".docx", ".odt", ".doc"] ∧ targetFormat = "pdf" then
    convertDocxToPdf L fs inputPath outputDir
  else if ext ∈ [".xlsx"] ∧ targetFormat = "csv" then
    convertXlsxToCsv L fs inputPath outputDir
  else if ext = ".csv" ∧ targetFormat = "xlsx" then
    convertCsvToXlsx L fs inputPath outputDir
  else if ext ∈ [".png", ".jpg", ".jpeg"] ∧
      targetFormat ∈ ["png", "jpg", "jpeg", "webp", "avif"] then
    convertImage L fs inputPath targetFormat outputDir
  else if ext = ".pdf" ∧ (targetFormat ∈ ["png", "jpg"] ∨ targetFormat = "images") then
    pdfToImages L fs inputPath outputDir
  else if targetFormat = eraseFirstDot ext then
    copyThrough fs inputPath outputDir
  else
    Outcome.fail fs none (.unsupported ext targetFormat)

/-! ## The job service (`src/server.js`) -/

/-- The request as the handler sees it after the upload middleware. -/
structure Request where
  /-- Field `req.file.path`, when a file was uploaded. -/
  file : Option String
  /-- Field `req.body.targetFormat`. -/
  targetFormat : String
  deriving DecidableEq, Repr

/-- One entry of the `files` list of a successful response. -/
structure PublicFile where
  name : String
  url : String
  deriving DecidableEq, Repr

/-- The JSON body of a response. -/
inductive Body where
  | error (error : String)
  | converted (jobId : String) (files : List PublicFile)
  deriving DecidableEq, Repr

/-- A response: its status code and JSON body. -/
structure Response where
  status : Nat
  body : Body
  deriving DecidableEq, Repr

/-- The calls the handler makes to the file system and to the dispatcher. -/
inductive Action where
  | mkdir (path : String)
  | convert (inputPath targetFormat outputDir : String)
  deriving DecidableEq, Repr

/-- The surroundings of one request. -/
structure ServerEnv where
  /-- Node's `__dirname`. -/
  dirname : String
  /-- The identifier `uuidv4()` returns for this request. -/
  uuidv4 : String
  /-- Call `fs.mkdir(path, { recursive: true })`: it succeeds or raises an error. -/
  mkdir : String → Except ConvError Unit

/-- Constant `OUTPUT_DIR`. -/
def OUTPUT_DIR (E : ServerEnv) : String := join E.dirname "outputs"

/-- The expression `err.message || 'Conversion failed'`. -/
def errorText (err : ConvError) : String :=
  if err.message = "" then "Conversion failed" else err.message

/-- What handling one request amounts to: the response, the calls made, and the
dispatcher's outcome when it was invoked. -/
structure Handled where
  response : Response
  actions : List Action
  outcome : Option Outcome

/-- The handler of `POST /api/convert`. -/
def handleConvert (L : Libs) (E : ServerEnv) (fs : FS) (req : Request) : Handled :=
  match req.file with
  | none =>
    { response := { status := 400, body := .error "No file uploaded" }
      actions := [], outcome := none }
  | some inputPath =>
    let outFormat := req.targetFormat
    let jobId := E.uuidv4
    let outputBase := join (OUTPUT_DIR E) jobId
    match E.mkdir outputBase with
    | .error err =>
      { response := { status := 500, body := .error (errorText err) }
        actions := [.mkdir outputBase], outcome := none }
    | .ok _ =>
      let o := convertFile L fs inputPath outFormat outputBase
      let actions := [.mkdir outputBase, .convert inputPath outFormat outputBase]
      match o.result with
      | .error err =>
        { response := { status := 500, body := .error (errorText err) }
          actions := actions, outcome := some o }
      | .ok results =>
        let publicFiles := results.map fun p =>
          { name := basename p ""
            url := "/outputs/" ++ basename outputBase "" ++ "/" ++ basename p "" }
        { response := { status := 200, body := .converted jobId publicFiles }
          actions := actions, outcome := some o }

/-- The shape of a UUID string: 36 characters, each a hexadecimal digit or a dash. -/
def isUuid (s : String) : Bool :=
  decide (s.data.length = 36) &&
    s.data.all fun c => c = '-' || ('0' ≤ c && c ≤ '9') || ('a' ≤ c && c ≤ 'f')

/-! ## A concrete set of libraries, for evaluating the definitions -/

/-- Sample libraries: the codec maps a character to its code point, the
document, spreadsheet and PDF libraries accept any input, and the image encoder
puts a one-byte tag in front of the pixels it was given. -/
def sampleLibs : Libs where
  libreConvert := fun docBuf _ => .ok (37 :: docBuf)
  xlsxRead := fun data =>
    .ok { sheets := [{ id := 1, name := "Sheet1",
                       rows := [[.value ⟨data.map Char.ofNat⟩]] }] }
  xlsxWrite := fun workbook => .ok (workbook.sheets.map fun ws => ws.rows.length)
  sharp := fun _ data format _ => .ok (format.data.length :: data)
  pdfLoad := fun _ => .ok 1
  utf8Decode := fun data => ⟨data.map Char.ofNat⟩
  utf8Encode := fun s => s.data.map Char.toNat


/-! ## The routing rules -/

/-- Whether the input's extension, compared in lower case, is one of the
`tokens` (written without the dot). -/
def hasExtension (inputPath : String) (tokens : List String) : Bool :=
  decide (toLowerCase (extname inputPath) ∈ tokens.map fun token => "." ++ token)

/-- The condition under which each strategy is chosen, on the input path and
the target format. The conditions of rules 1 to 5 are those the specification
lists. The condition of the pass-through is the test of the dispatcher's
fallback, `targetFormat === ext.replace('.', '')`: the target format, as it
is, against the lower-cased extension without its dot. It is not the
specification's rule 6, which compares the two case-insensitively; that one is
`sameExtensionIgnoringCase`. -/
def ruleHolds : Strategy → String → String → Bool
  | .docToPdf, inputPath, targetFormat =>
    hasExtension inputPath ["docx", "odt", "doc"] && decide (targetFormat = "pdf")
  | .xlsxToCsv, inputPath, targetFormat =>
    hasExtension inputPath ["xlsx"] && decide (targetFormat = "csv")
  | .csvToXlsx, inputPath, targetFormat =>
    hasExtension inputPath ["csv"] && decide (targetFormat = "xlsx")
  | .image, inputPath, targetFormat =>
    hasExtension inputPath ["png", "jpg", "jpeg"] &&
      decide (targetFormat ∈ ["png", "jpg", "jpeg", "webp", "avif"])
  | .pdfStub, inputPath, targetFormat =>
    hasExtension inputPath ["pdf"] && decide (targetFormat ∈ ["png", "jpg", "images"])
  | .passThrough, inputPath, targetFormat =>
    decide (targetFormat = eraseFirstDot (toLowerCase (extname inputPath)))

/-- Rules 1 to 5 of the routing table, in priority order. -/
def rules1to5 : List Strategy := [.docToPdf, .xlsxToCsv, .csvToXlsx, .image, .pdfStub]

/-- Rules 1 to 5 followed by the dispatcher's fallback test, in priority order. -/
def routingTable : List Strategy := rules1to5 ++ [.passThrough]

/-- The first rule of `table` whose condition holds, if any. -/
def firstMatch (table : List Strategy) (inputPath targetFormat : String) : Option Strategy :=
  table.find? fun s => ruleHolds s inputPath targetFormat

/-- Rule 6 as the specification words it: the target format equals the input's
extension without its dot when the two are compared case-insensitively. -/
def sameExtensionIgnoringCase (inputPath targetFormat : String) : Bool :=
  decide (toLowerCase targetFormat = eraseFirstDot (toLowerCase (extname inputPath)))

/-- The path `path` is `outputDir` joined with a single file name that is
derived from the base name of `inputPath`: the base name itself, or the base
name without its extension followed by a suffix. The path then lies directly
inside `outputDir`. -/
def isOutputOf (inputPath outputDir path : String) : Prop :=
  ∃ name, isFileName name = true ∧ path = join outputDir name ∧
    path = childPath outputDir name ∧
    (name = basename inputPath "" ∨
      ∃ suffix, name = basename inputPath (extname inputPath) ++ suffix)

/-- Sample libraries whose spreadsheet reader finds two sheets, with ids 1 and 2. -/
def twoSheetLibs : Libs :=
  { sampleLibs with
    xlsxRead := fun _ =>
      .ok { sheets := [{ id := 1, name := "First", rows := [[.value "a", .value "b"]] },
                       { id := 2, name := "Second", rows := [[.value "1"], [.value "2"]] }] } }

/-! ## CSV text, as the specification words it -/

/-- A field as the specification words it: the string form of the cell between
double quotes, each double-quote character in it doubled. -/
def quotedField (str : String) : String :=
  String.singleton dquote ++
    String.join (str.data.map fun c =>
      if c = dquote then String.mk [dquote, dquote] else String.singleton c) ++
    String.singleton dquote

/-- The field of a cell: quoted, or the empty string for `null` and `undefined`
(to which a hole of the row reads). -/
def specField : Cell → String
  | .value str => quotedField str
  | .null => ""
  | .undefined => ""
  | .hole => ""

/-- The CSV text of a sheet: the rows joined by a line feed, each row's fields
joined by a comma. -/
def specCsv (rows : List (List Cell)) : String :=
  String.intercalate "\n" (rows.map fun r => String.intercalate "," (r.map specField))

/-- The CSV text with the given rows: fields joined by commas, rows by line feeds. -/
def csvText (rows : List (List String)) : String :=
  String.intercalate "\n" (rows.map fun r => String.intercalate "," r)

/-- The CSV text with the given rows, each field wrapped in double quotes. -/
def quotedCsvText (rows : List (List String)) : String :=
  String.intercalate "\n" (rows.map fun r =>
    String.intercalate "," (r.map fun field =>
      String.singleton dquote ++ field ++ String.singleton dquote))

/-- No field contains a comma, a double quote or a line break. -/
def plainFields (rows : List (List String)) : Prop :=
  ∀ r ∈ rows, ∀ field ∈ r,
    ',' ∉ field.data ∧ dquote ∉ field.data ∧ '\n' ∉ field.data ∧ '\r' ∉ field.data

/-- The rows are those of a CSV text: at least one row, and at least one field
in every row. -/
def properRows (rows : List (List String)) : Prop :=
  rows ≠ [] ∧ ∀ r ∈ rows, r ≠ []

/-- The CSV texts `convertXlsxToCsv` produces, one per sheet, for the workbook
`convertCsvToXlsx` builds from the file text `text`, the workbook storing the
rows it was given. -/
def roundTripCsv (text : String) : List String :=
  (csvWorkbook (csvRows (trim text))).sheets.map fun worksheet => sheetCsv worksheet.rows

/-- Sample libraries whose spreadsheet writer and reader agree on one workbook,
the one with the rows `a,b` and `1,2`: the writer stores it as the byte `0`,
which the reader reads back as that workbook. -/
def storingLibs : Libs :=
  { sampleLibs with
    xlsxWrite := fun _ => .ok [0]
    xlsxRead := fun _ => .ok (csvWorkbook [["a", "b"], ["1", "2"]]) }

/-- Sample surroundings of a request: the application lives in `/srv/app`,
directory creation succeeds, and the request is given a fixed identifier. -/
def sampleEnv : ServerEnv where
  dirname := "/srv/app"
  uuidv4 := "123e4567-e89b-42d3-a456-426614174000"
  mkdir := fun _ => .ok ()

/-- Sample libraries whose document renderer raises an error with an empty message. -/
def silentFailLibs : Libs :=
  { sampleLibs with libreConvert := fun _ _ => .error "" }

/-! ## Lemmas: splitting and joining -/

theorem splitOnChar_ne_nil (sep : Char) (l : List Char) : splitOnChar sep l ≠ [] := by
  induction l with
  | nil => simp [splitOnChar]
  | cons c cs ih =>
    unfold splitOnChar
    split_ifs
    · simp
    · split <;> simp

theorem splitOnChar_cons_ne (sep c : Char) (cs : List Char) (h : c ≠ sep) :
    ∃ seg rest, splitOnChar sep cs = seg :: rest ∧
      splitOnChar sep (c :: cs) = (c :: seg) :: rest := by
  cases hs : splitOnChar sep cs with
  | nil => exact absurd hs (splitOnChar_ne_nil sep cs)
  | cons seg rest =>
    refine ⟨seg, rest, rfl, ?_⟩
    rw [splitOnChar, if_neg h, hs]

theorem not_mem_of_mem_splitOnChar (sep : Char) (l seg : List Char)
    (h : seg ∈ splitOnChar sep l) : sep ∉ seg := by
  induction l generalizing seg with
  | nil => simp [splitOnChar] at h; simp [h]
  | cons c cs ih =>
    by_cases hc : c = sep
    · rw [splitOnChar, if_pos hc] at h
      rcases List.mem_cons.1 h with h | h
      · simp [h]
      · exact ih seg h
    · obtain ⟨s, rest, hs, hcs⟩ := splitOnChar_cons_ne sep c cs hc
      rw [hcs] at h
      rcases List.mem_cons.1 h with h | h
      · have := ih s (by rw [hs]; exact List.mem_cons_self _ _)
        subst h
        simp only [List.mem_cons, not_or]
        exact ⟨fun e => hc e.symm, this⟩
      · exact ih seg (by rw [hs]; exact List.mem_cons_of_mem _ h)

theorem splitOnChar_of_not_mem (sep : Char) (l : List Char) (h : sep ∉ l) :
    splitOnChar sep l = [l] := by
  induction l with
  | nil => rfl
  | cons c cs ih =>
    simp only [List.mem_cons, not_or] at h
    rw [splitOnChar, if_neg (fun e => h.1 e.symm), ih h.2]

theorem splitOnChar_append_sep (sep : Char) (a b : List Char) (h : sep ∉ a) :
    splitOnChar sep (a ++ sep :: b) = a :: splitOnChar sep b := by
  induction a with
  | nil => simp [splitOnChar]
  | cons c cs ih =>
    simp only [List.mem_cons, not_or] at h
    rw [List.cons_append, splitOnChar, if_neg (fun e => h.1 e.symm), ih h.2]

theorem splitOnChar_append (sep : Char) (a b : List Char) :
    splitOnChar sep (a ++ sep :: b) = splitOnChar sep a ++ splitOnChar sep b := by
  induction a with
  | nil => simp [splitOnChar]
  | cons c cs ih =>
    by_cases hc : c = sep
    · rw [List.cons_append, splitOnChar, if_pos hc, ih, splitOnChar, if_pos hc]
      rfl
    · obtain ⟨s, rest, hs, hcs⟩ := splitOnChar_cons_ne sep c cs hc
      obtain ⟨s2, rest2, hs2, hcs2⟩ := splitOnChar_cons_ne sep c (cs ++ sep :: b) hc
      rw [List.cons_append, hcs2, hcs]
      rw [ih, hs] at hs2
      simp only [List.cons_append, List.cons.injEq] at hs2
      rw [← hs2.1, ← hs2.2]
      rfl

theorem splitOnChar_joinWith (sep : Char) (pieces : List (List Char))
    (hne : pieces ≠ []) (h : ∀ l ∈ pieces, sep ∉ l) :
    splitOnChar sep (joinWith [sep] pieces) = pieces := by
  induction pieces with
  | nil => exact absurd rfl hne
  | cons x rest ih =>
    cases rest with
    | nil => simpa [joinWith] using splitOnChar_of_not_mem sep x (h x (List.mem_cons_self _ _))
    | cons y rest =>
      have hx := h x (List.mem_cons_self _ _)
      rw [joinWith, List.append_assoc, List.singleton_append, splitOnChar_append_sep sep _ _ hx,
        ih (by simp) (fun l hl => h l (List.mem_cons_of_mem _ hl))]

/-! ## Lemmas: paths -/

theorem components_slashfree (p seg : List Char) (h : seg ∈ components p) :
    seg ≠ [] ∧ '/' ∉ seg := by
  unfold components at h
  rw [List.mem_filter] at h
  exact ⟨by simpa using h.2, not_mem_of_mem_splitOnChar '/' p seg h.1⟩

theorem lastComponent_slashfree (p : List Char) : '/' ∉ lastComponent p := by
  unfold lastComponent
  cases h : (components p).getLast? with
  | none => simp
  | some seg => exact (components_slashfree p seg (List.mem_of_getLast?_eq_some h)).2

theorem digitChar_ne_slash : ∀ n, n < 10 → Nat.digitChar n ≠ '/' := by
  decide

theorem toDigitsCore_slashfree (fuel n : Nat) (ds : List Char) (h : '/' ∉ ds) :
    '/' ∉ Nat.toDigitsCore 10 fuel n ds := by
  induction fuel generalizing n ds with
  | zero => simpa [Nat.toDigitsCore] using h
  | succ fuel ih =>
    have hd : '/' ∉ Nat.digitChar (n % 10) :: ds := by
      simp only [List.mem_cons, not_or]
      exact ⟨fun e => digitChar_ne_slash _ (Nat.mod_lt n (by decide)) e.symm, h⟩
    rw [Nat.toDigitsCore]
    split_ifs
    · exact hd
    · exact ih _ _ hd

theorem toString_nat_slashfree (n : Nat) : '/' ∉ (toString n).data := by
  show '/' ∉ (Nat.repr n).data
  unfold Nat.repr Nat.toDigits
  simpa [List.asString] using toDigitsCore_slashfree (n + 1) n [] (by simp)

theorem isFileName_iff (name : String) :
    isFileName name = true ↔
      name.data ≠ [] ∧ '/' ∉ name.data ∧ name.data ≠ ['.'] ∧ name.data ≠ ['.', '.'] := by
  simp [isFileName]

theorem normalizeStep_plain (b : Bool) (stack : List (List Char)) (seg : List Char)
    (h1 : seg ≠ []) (h2 : seg ≠ ['.']) (h3 : seg ≠ ['.', '.']) :
    normalizeStep b stack seg = seg :: stack := by
  simp [normalizeStep, h1, h2, h3]

theorem normalizeStep_inv (b : Bool) (stack : List (List Char)) (seg : List Char)
    (hs : ∀ s ∈ stack, s ≠ [] ∧ '/' ∉ s) (hseg : '/' ∉ seg) :
    ∀ s ∈ normalizeStep b stack seg, s ≠ [] ∧ '/' ∉ s := by
  intro s hmem
  have hdd : (['.', '.'] : List Char) ≠ [] ∧ '/' ∉ (['.', '.'] : List Char) := by decide
  have hcons : ∀ stack' : List (List Char), (∀ t ∈ stack', t ∈ stack) →
      s ∈ seg :: stack' → seg ≠ [] → s ≠ [] ∧ '/' ∉ s := by
    intro stack' hsub hin hne
    rcases List.mem_cons.1 hin with e | e
    · subst e
      exact ⟨hne, hseg⟩
    · exact hs s (hsub s e)
  unfold normalizeStep at hmem
  by_cases h1 : seg = [] ∨ seg = ['.']
  · rw [if_pos h1] at hmem
    exact hs s hmem
  · rw [if_neg h1] at hmem
    have hne : seg ≠ [] := fun e => h1 (Or.inl e)
    by_cases h2 : seg = ['.', '.']
    · rw [if_pos h2] at hmem
      cases stack with
      | nil =>
        have : s ∈ seg :: [] := by
          cases b <;> simp_all
        exact hcons [] (fun t ht => ht) this hne
      | cons top rest =>
        have : s ∈ seg :: top :: rest := by
          simp only at hmem
          split_ifs at hmem
          · exact List.mem_cons_of_mem _ (List.mem_cons_of_mem _ hmem)
          · exact hmem
          · exact List.mem_cons_of_mem _ hmem
        exact hcons _ (fun t ht => ht) this hne
    · rw [if_neg h2] at hmem
      exact hcons _ (fun t ht => ht) hmem hne

theorem foldl_normalizeStep_inv (b : Bool) (segs stack : List (List Char))
    (hsegs : ∀ s ∈ segs, '/' ∉ s) (hs : ∀ s ∈ stack, s ≠ [] ∧ '/' ∉ s) :
    ∀ s ∈ segs.foldl (normalizeStep b) stack, s ≠ [] ∧ '/' ∉ s := by
  induction segs generalizing stack with
  | nil => simpa using hs
  | cons seg rest ih =>
    rw [List.foldl_cons]
    exact ih _ (fun s h => hsegs s (List.mem_cons_of_mem _ h))
      (normalizeStep_inv b stack seg hs (hsegs seg (List.mem_cons_self _ _)))

theorem normalizeSegments_inv (b : Bool) (p s : List Char) (h : s ∈ normalizeSegments b p) :
    s ≠ [] ∧ '/' ∉ s := by
  unfold normalizeSegments at h
  rw [List.mem_reverse] at h
  exact foldl_normalizeStep_inv b _ [] (fun s hs => not_mem_of_mem_splitOnChar '/' p s hs)
    (by simp) s h

theorem normalizeSegments_snoc (b : Bool) (d name : List Char)
    (h0 : '/' ∉ name) (h1 : name ≠ []) (h2 : name ≠ ['.']) (h3 : name ≠ ['.', '.']) :
    normalizeSegments b (d ++ '/' :: name) = normalizeSegments b d ++ [name] := by
  unfold normalizeSegments
  rw [splitOnChar_append, splitOnChar_of_not_mem '/' name h0, List.foldl_append,
    List.foldl_cons, List.foldl_nil, normalizeStep_plain b _ name h1 h2 h3, List.reverse_cons]

theorem normalizeSegments_single (b : Bool) (name : List Char)
    (h0 : '/' ∉ name) (h1 : name ≠ []) (h2 : name ≠ ['.']) (h3 : name ≠ ['.', '.']) :
    normalizeSegments b name = [name] := by
  unfold normalizeSegments
  rw [splitOnChar_of_not_mem '/' name h0, List.foldl_cons, List.foldl_nil,
    normalizeStep_plain b _ name h1 h2 h3]
  rfl

theorem joinWith_snoc (sep : List Char) (pieces : List (List Char)) (x : List Char) :
    joinWith sep (pieces ++ [x]) = if pieces = [] then x else joinWith sep pieces ++ sep ++ x := by
  induction pieces with
  | nil => simp [joinWith]
  | cons y rest ih =>
    cases rest with
    | nil => simp [joinWith]
    | cons z rest =>
      rw [List.cons_append, List.cons_append, joinWith, ← List.cons_append, ih]
      simp [joinWith, List.append_assoc]

theorem joinWith_snoc_ne_nil (sep : List Char) (pieces : List (List Char)) (x : List Char)
    (hx : x ≠ []) : joinWith sep (pieces ++ [x]) ≠ [] := by
  rw [joinWith_snoc]
  split_ifs <;> simp [hx]

theorem getLast?_joinWith_snoc (sep : List Char) (pieces : List (List Char)) (x : List Char)
    (hx : x ≠ []) : (joinWith sep (pieces ++ [x])).getLast? = x.getLast? := by
  rw [joinWith_snoc]
  split_ifs
  · rfl
  · rw [List.getLast?_append_of_ne_nil _ hx]

theorem head?_ne_of_not_mem (c : Char) (l : List Char) (h : c ∉ l) : l.head? ≠ some c := by
  cases l with
  | nil => simp
  | cons x xs =>
    simp only [List.mem_cons, not_or] at h
    simpa using fun e => h.1 e.symm

theorem getLast?_ne_of_not_mem (c : Char) (l : List Char) (h : c ∉ l) : l.getLast? ≠ some c :=
  fun e => h (List.mem_of_getLast?_eq_some e)

theorem normalize_snoc (d name : List Char)
    (h0 : '/' ∉ name) (h1 : name ≠ []) (h2 : name ≠ ['.']) (h3 : name ≠ ['.', '.']) :
    (normalize ⟨d ++ '/' :: name⟩).data =
      (if (d ++ '/' :: name).head? = some '/' then ['/'] else []) ++
        joinWith ['/'] (normalizeSegments (!decide ((d ++ '/' :: name).head? = some '/')) d
          ++ [name]) := by
  have hlast : (d ++ '/' :: name).getLast? ≠ some '/' := by
    rw [List.getLast?_append_of_ne_nil _ (by simp),
      show '/' :: name = ['/'] ++ name from rfl, List.getLast?_append_of_ne_nil _ h1]
    exact getLast?_ne_of_not_mem _ _ h0
  unfold normalize
  simp only [List.append_eq_nil, List.cons_ne_nil, and_false, if_false, hlast,
    normalizeSegments_snoc _ d name h0 h1 h2 h3, joinWith_snoc_ne_nil _ _ name h1]
  split_ifs <;> rfl

theorem normalize_single (name : List Char)
    (h0 : '/' ∉ name) (h1 : name ≠ []) (h2 : name ≠ ['.']) (h3 : name ≠ ['.', '.']) :
    (normalize ⟨name⟩).data = name := by
  unfold normalize
  simp only [h1, if_false, head?_ne_of_not_mem _ _ h0, getLast?_ne_of_not_mem _ _ h0,
    decide_False, Bool.not_false, normalizeSegments_single true name h0 h1 h2 h3, joinWith]

theorem join_eq_childPath (dir name : String) (h : isFileName name = true) :
    join dir name = childPath dir name := by
  obtain ⟨h1, h0, h2, h3⟩ := (isFileName_iff name).1 h
  apply String.ext
  unfold join childPath
  by_cases hd : dir.data = []
  · rw [if_pos hd, if_neg h1]
    have : normalizeSegments true ([] : List Char) = [] := by decide
    simp [hd, normalize_single name.data h0 h1 h2 h3, this, joinWith]
  · rw [if_neg hd, if_neg h1]
    have hdata : dir ++ "/" ++ name = ⟨dir.data ++ '/' :: name.data⟩ := by
      apply String.ext
      simp [String.data_append]
    have hhead : (dir.data ++ '/' :: name.data).head? = dir.data.head? := by
      cases hdd : dir.data with
      | nil => exact absurd hdd hd
      | cons x xs => rfl
    rw [hdata, normalize_snoc dir.data name.data h0 h1 h2 h3, hhead]

theorem childPath_getLast? (dir name : String) (h : isFileName name = true) :
    (childPath dir name).data.getLast? ≠ some '/' := by
  obtain ⟨h1, h0, _, _⟩ := (isFileName_iff name).1 h
  unfold childPath
  simp only
  rw [List.getLast?_append_of_ne_nil _ (joinWith_snoc_ne_nil _ _ _ h1),
    getLast?_joinWith_snoc _ _ _ h1]
  exact getLast?_ne_of_not_mem _ _ h0

theorem lastComponent_childPath (dir name : String) (h : isFileName name = true) :
    lastComponent (childPath dir name).data = name.data := by
  obtain ⟨h1, h0, _, _⟩ := (isFileName_iff name).1 h
  have hall : ∀ l ∈ normalizeSegments (!decide (dir.data.head? = some '/')) dir.data
      ++ [name.data], '/' ∉ l := by
    intro l hl
    rcases List.mem_append.1 hl with hl | hl
    · exact (normalizeSegments_inv _ _ l hl).2
    · rw [List.mem_singleton.1 hl]
      exact h0
  have hsplit := splitOnChar_joinWith '/' _ (by simp) hall
  unfold lastComponent components childPath
  simp only
  split_ifs
  · rw [List.singleton_append, splitOnChar, if_pos rfl, hsplit]
    simp [List.filter_cons, List.filter_append, h1]
  · rw [List.nil_append, hsplit]
    simp [List.filter_append, h1]

theorem namesFile_join (dir name : String) (h : isFileName name = true) :
    namesFile (join dir name) = true := by
  rw [join_eq_childPath dir name h]
  unfold namesFile
  rw [lastComponent_childPath dir name h]
  simp [childPath_getLast? dir name h, h]

theorem basename_join (dir name : String) (h : isFileName name = true) :
    basename (join dir name) "" = name := by
  rw [join_eq_childPath dir name h]
  apply String.ext
  simp [basename, lastComponent_childPath dir name h]

theorem extOfComponent_length_le (base : List Char) :
    (extOfComponent base).length ≤ base.length := by
  have hlen : base.length =
      (base.reverse.takeWhile (fun c => c ≠ '.')).length +
        (base.reverse.dropWhile (fun c => c ≠ '.')).length := by
    rw [← List.length_append, List.takeWhile_append_dropWhile, List.length_reverse]
  unfold extOfComponent
  simp only
  split
  · simp
  · rename_i heq
    rw [heq] at hlen
    split_ifs
    · simp
    · simp
    · simp only [List.length_cons, List.length_reverse]
      simp only [List.length_cons] at hlen
      omega

theorem basename_extname_slashfree (p : String) : '/' ∉ (basename p (extname p)).data := by
  have hbase := lastComponent_slashfree p.data
  have hle := extOfComponent_length_le (lastComponent p.data)
  unfold basename
  simp only
  split_ifs with h1 h2 h3 h4
  · simp
  · exact fun hmem => hbase (List.mem_of_mem_take hmem)
  · exact absurd h4.1 (by simp only [extname]; omega)
  · exact hbase
  · exact hbase

theorem isFileName_append (a b : String) (ha : '/' ∉ a.data) (hb : '/' ∉ b.data)
    (hlen : 3 ≤ b.data.length) : isFileName (a ++ b) = true := by
  rw [isFileName_iff, String.data_append]
  have hl : 3 ≤ (a.data ++ b.data).length := by
    rw [List.length_append]
    omega
  refine ⟨?_, ?_, ?_, ?_⟩
  · intro e
    rw [e] at hl
    simp at hl
  · simp [ha, hb]
  · intro e
    rw [e] at hl
    simp at hl
  · intro e
    rw [e] at hl
    simp at hl

/-! ## Lemmas: the strategies -/

theorem convertDocxToPdf_strategy (L : Libs) (fs : FS) (p d : String) :
    (convertDocxToPdf L fs p d).strategy = some .docToPdf := by
  unfold convertDocxToPdf
  cases readFile fs p with
  | error e => rfl
  | ok data =>
    dsimp only
    cases L.libreConvert data ".pdf" <;> rfl

theorem convertXlsxToCsv_strategy (L : Libs) (fs : FS) (p d : String) :
    (convertXlsxToCsv L fs p d).strategy = some .xlsxToCsv := by
  unfold convertXlsxToCsv
  cases readFile fs p with
  | error e => rfl
  | ok data =>
    dsimp only
    cases L.xlsxRead data <;> rfl

theorem convertCsvToXlsx_strategy (L : Libs) (fs : FS) (p d : String) :
    (convertCsvToXlsx L fs p d).strategy = some .csvToXlsx := by
  unfold convertCsvToXlsx
  cases readFile fs p with
  | error e => rfl
  | ok data =>
    dsimp only
    cases L.xlsxWrite (csvWorkbook (csvRows (trim (L.utf8Decode data)))) <;> rfl

theorem convertImage_strategy (L : Libs) (fs : FS) (p t d : String) :
    (convertImage L fs p t d).strategy = some .image := by
  unfold convertImage
  cases readFile fs p with
  | error e => rfl
  | ok data =>
    dsimp only
    cases L.sharp p data t (join d (basename p (extname p) ++ "." ++ t)) <;> rfl

theorem pdfToImages_strategy (L : Libs) (fs : FS) (p d : String) :
    (pdfToImages L fs p d).strategy = some .pdfStub := by
  unfold pdfToImages
  cases readFile fs p with
  | error e => rfl
  | ok data =>
    dsimp only
    cases L.pdfLoad data <;> rfl

theorem copyThrough_strategy (fs : FS) (p d : String) :
    (copyThrough fs p d).strategy = some .passThrough := by
  unfold copyThrough
  cases readFile fs p <;> rfl

theorem ruleHolds_docToPdf (p t : String) :
    ruleHolds .docToPdf p t = true ↔
      toLowerCase (extname p) ∈ [".docx", ".odt", ".doc"] ∧ t = "pdf" := by
  have e : (["docx", "odt", "doc"].map fun token => "." ++ token) = [".docx", ".odt", ".doc"] := by
    decide
  simp only [ruleHolds, hasExtension, e, Bool.and_eq_true, decide_eq_true_eq]

theorem ruleHolds_xlsxToCsv (p t : String) :
    ruleHolds .xlsxToCsv p t = true ↔ toLowerCase (extname p) ∈ [".xlsx"] ∧ t = "csv" := by
  have e : (["xlsx"].map fun token => "." ++ token) = [".xlsx"] := by decide
  simp only [ruleHolds, hasExtension, e, Bool.and_eq_true, decide_eq_true_eq]

theorem ruleHolds_csvToXlsx (p t : String) :
    ruleHolds .csvToXlsx p t = true ↔ toLowerCase (extname p) = ".csv" ∧ t = "xlsx" := by
  have e : (["csv"].map fun token => "." ++ token) = [".csv"] := by decide
  simp only [ruleHolds, hasExtension, e, Bool.and_eq_true, decide_eq_true_eq,
    List.mem_singleton]

theorem ruleHolds_image (p t : String) :
    ruleHolds .image p t = true ↔
      toLowerCase (extname p) ∈ [".png", ".jpg", ".jpeg"] ∧
        t ∈ ["png", "jpg", "jpeg", "webp", "avif"] := by
  have e : (["png", "jpg", "jpeg"].map fun token => "." ++ token) = [".png", ".jpg", ".jpeg"] := by
    decide
  simp only [ruleHolds, hasExtension, e, Bool.and_eq_true, decide_eq_true_eq]

theorem ruleHolds_pdfStub (p t : String) :
    ruleHolds .pdfStub p t = true ↔
      toLowerCase (extname p) = ".pdf" ∧ (t ∈ ["png", "jpg"] ∨ t = "images") := by
  have e : (["pdf"].map fun token => "." ++ token) = [".pdf"] := by decide
  simp only [ruleHolds, hasExtension, e, Bool.and_eq_true, decide_eq_true_eq,
    List.mem_singleton, List.mem_cons, List.mem_nil_iff, or_false, or_assoc]

theorem ruleHolds_passThrough (p t : String) :
    ruleHolds .passThrough p t = true ↔ t = eraseFirstDot (toLowerCase (extname p)) := by
  simp only [ruleHolds, decide_eq_true_eq]

theorem eq_false_of_iff {b : Bool} {c : Prop} (hiff : b = true ↔ c) (hc : ¬c) : b = false := by
  cases b
  · rfl
  · exact absurd (hiff.1 rfl) hc

theorem firstMatch_routingTable (p t : String) :
    firstMatch routingTable p t =
      if toLowerCase (extname p) ∈ [".docx", ".odt", ".doc"] ∧ t = "pdf" then some .docToPdf
      else if toLowerCase (extname p) ∈ [".xlsx"] ∧ t = "csv" then some .xlsxToCsv
      else if toLowerCase (extname p) = ".csv" ∧ t = "xlsx" then some .csvToXlsx
      else if toLowerCase (extname p) ∈ [".png", ".jpg", ".jpeg"] ∧
          t ∈ ["png", "jpg", "jpeg", "webp", "avif"] then some .image
      else if toLowerCase (extname p) = ".pdf" ∧ (t ∈ ["png", "jpg"] ∨ t = "images") then
        some .pdfStub
      else if t = eraseFirstDot (toLowerCase (extname p)) then some .passThrough
      else none := by
  unfold firstMatch routingTable rules1to5
  simp only [List.cons_append, List.nil_append]
  split_ifs with h1 h2 h3 h4 h5 h6
  · rw [List.find?_cons, (ruleHolds_docToPdf p t).2 h1]
  · rw [List.find?_cons, eq_false_of_iff (ruleHolds_docToPdf p t) h1,
      List.find?_cons, (ruleHolds_xlsxToCsv p t).2 h2]
  · rw [List.find?_cons, eq_false_of_iff (ruleHolds_docToPdf p t) h1,
      List.find?_cons, eq_false_of_iff (ruleHolds_xlsxToCsv p t) h2,
      List.find?_cons, (ruleHolds_csvToXlsx p t).2 h3]
  · rw [List.find?_cons, eq_false_of_iff (ruleHolds_docToPdf p t) h1,
      List.find?_cons, eq_false_of_iff (ruleHolds_xlsxToCsv p t) h2,
      List.find?_cons, eq_false_of_iff (ruleHolds_csvToXlsx p t) h3,
      List.find?_cons, (ruleHolds_image p t).2 h4]
  · rw [List.find?_cons, eq_false_of_iff (ruleHolds_docToPdf p t) h1,
      List.find?_cons, eq_false_of_iff (ruleHolds_xlsxToCsv p t) h2,
      List.find?_cons, eq_false_of_iff (ruleHolds_csvToXlsx p t) h3,
      List.find?_cons, eq_false_of_iff (ruleHolds_image p t) h4,
      List.find?_cons, (ruleHolds_pdfStub p t).2 h5]
  · rw [List.find?_cons, eq_false_of_iff (ruleHolds_docToPdf p t) h1,
      List.find?_cons, eq_false_of_iff (ruleHolds_xlsxToCsv p t) h2,
      List.find?_cons, eq_false_of_iff (ruleHolds_csvToXlsx p t) h3,
      List.find?_cons, eq_false_of_iff (ruleHolds_image p t) h4,
      List.find?_cons, eq_false_of_iff (ruleHolds_pdfStub p t) h5,
      List.find?_cons, (ruleHolds_passThrough p t).2 h6]
  · rw [List.find?_cons, eq_false_of_iff (ruleHolds_docToPdf p t) h1,
      List.find?_cons, eq_false_of_iff (ruleHolds_xlsxToCsv p t) h2,
      List.find?_cons, eq_false_of_iff (ruleHolds_csvToXlsx p t) h3,
      List.find?_cons, eq_false_of_iff (ruleHolds_image p t) h4,
      List.find?_cons, eq_false_of_iff (ruleHolds_pdfStub p t) h5,
      List.find?_cons, eq_false_of_iff (ruleHolds_passThrough p t) h6]
    rfl

/-- The dispatcher runs the strategy of the first matching rule. -/
theorem convertFile_eq (L : Libs) (fs : FS) (p t d : String) :
    convertFile L fs p t d =
      match firstMatch routingTable p t with
      | some .docToPdf => convertDocxToPdf L fs p d
      | some .xlsxToCsv => convertXlsxToCsv L fs p d
      | some .csvToXlsx => convertCsvToXlsx L fs p d
      | some .image => convertImage L fs p t d
      | some .pdfStub => pdfToImages L fs p d
      | some .passThrough => copyThrough fs p d
      | none => Outcome.fail fs none (.unsupported (toLowerCase (extname p)) t) := by
  rw [firstMatch_routingTable]
  unfold convertFile
  dsimp only
  split_ifs <;> rfl

theorem convertFile_strategy (L : Libs) (fs : FS) (p t d : String) :
    (convertFile L fs p t d).strategy = firstMatch routingTable p t := by
  rw [convertFile_eq]
  cases h : firstMatch routingTable p t with
  | none => rfl
  | some s =>
    cases s
    · exact convertDocxToPdf_strategy L fs p d
    · exact convertXlsxToCsv_strategy L fs p d
    · exact convertCsvToXlsx_strategy L fs p d
    · exact convertImage_strategy L fs p t d
    · exact pdfToImages_strategy L fs p d
    · exact copyThrough_strategy fs p d

theorem firstMatch_append_passThrough (p t : String) :
    firstMatch routingTable p t =
      (firstMatch rules1to5 p t).or
        (if ruleHolds .passThrough p t then some .passThrough else none) := by
  unfold firstMatch routingTable
  rw [List.find?_append, List.find?_cons, List.find?_nil]
  cases ruleHolds .passThrough p t <;> rfl

theorem firstMatch_rules1to5_ne_passThrough (p t : String) :
    firstMatch rules1to5 p t ≠ some .passThrough := by
  intro h
  have hmem := List.mem_of_find?_eq_some h
  revert hmem
  decide

theorem readFile_error_io (fs : FS) (p : String) (e : ConvError)
    (h : readFile fs p = .error e) : ∃ m, e = .io m := by
  unfold readFile at h
  split_ifs at h
  · split at h
    · cases h
    · cases h
      exact ⟨_, rfl⟩
  · cases h
    exact ⟨_, rfl⟩

theorem readFile_ok_namesFile (fs : FS) (p : String) (data : Data)
    (h : readFile fs p = .ok data) : namesFile p = true ∧ fs.lookup p = some data := by
  unfold readFile at h
  split_ifs at h with hn
  · split at h
    · rename_i heq
      cases h
      exact ⟨hn, heq⟩
    · cases h

theorem convertDocxToPdf_not_unsupported (L : Libs) (fs : FS) (p d a b : String) :
    (convertDocxToPdf L fs p d).result ≠ .error (.unsupported a b) := by
  unfold convertDocxToPdf
  cases h : readFile fs p with
  | error e =>
    obtain ⟨m, rfl⟩ := readFile_error_io fs p e h
    simp [Outcome.fail]
  | ok data =>
    dsimp only
    cases L.libreConvert data ".pdf" <;> simp [Outcome.fail, Outcome.wrote]

theorem convertXlsxToCsv_not_unsupported (L : Libs) (fs : FS) (p d a b : String) :
    (convertXlsxToCsv L fs p d).result ≠ .error (.unsupported a b) := by
  unfold convertXlsxToCsv
  cases h : readFile fs p with
  | error e =>
    obtain ⟨m, rfl⟩ := readFile_error_io fs p e h
    simp [Outcome.fail]
  | ok data =>
    dsimp only
    cases L.xlsxRead data <;> simp [Outcome.fail]

theorem convertCsvToXlsx_not_unsupported (L : Libs) (fs : FS) (p d a b : String) :
    (convertCsvToXlsx L fs p d).result ≠ .error (.unsupported a b) := by
  unfold convertCsvToXlsx
  cases h : readFile fs p with
  | error e =>
    obtain ⟨m, rfl⟩ := readFile_error_io fs p e h
    simp [Outcome.fail]
  | ok data =>
    dsimp only
    cases L.xlsxWrite (csvWorkbook (csvRows (trim (L.utf8Decode data)))) <;>
      simp [Outcome.fail, Outcome.wrote]

theorem convertImage_not_unsupported (L : Libs) (fs : FS) (p t d a b : String) :
    (convertImage L fs p t d).result ≠ .error (.unsupported a b) := by
  unfold convertImage
  cases h : readFile fs p with
  | error e =>
    obtain ⟨m, rfl⟩ := readFile_error_io fs p e h
    simp [Outcome.fail]
  | ok data =>
    dsimp only
    cases L.sharp p data t (join d (basename p (extname p) ++ "." ++ t)) <;>
      simp [Outcome.fail, Outcome.wrote]

theorem pdfToImages_not_unsupported (L : Libs) (fs : FS) (p d a b : String) :
    (pdfToImages L fs p d).result ≠ .error (.unsupported a b) := by
  unfold pdfToImages
  cases h : readFile fs p with
  | error e =>
    obtain ⟨m, rfl⟩ := readFile_error_io fs p e h
    simp [Outcome.fail]
  | ok data =>
    dsimp only
    cases L.pdfLoad data <;> simp [Outcome.fail, Outcome.wrote]

theorem copyThrough_not_unsupported (fs : FS) (p d a b : String) :
    (copyThrough fs p d).result ≠ .error (.unsupported a b) := by
  unfold copyThrough
  cases h : readFile fs p with
  | error e =>
    obtain ⟨m, rfl⟩ := readFile_error_io fs p e h
    simp [Outcome.fail]
  | ok data => simp [Outcome.wrote]

theorem copyThrough_ok (fs : FS) (p d : String) (data : Data) (h : readFile fs p = .ok data) :
    copyThrough fs p d = Outcome.wrote fs .passThrough (join d (basename p "")) data := by
  unfold copyThrough
  rw [h]

theorem basename_empty_suffix (p : String) : basename p "" = ⟨lastComponent p.data⟩ := by
  simp [basename]

theorem isFileName_basename (fs : FS) (p : String) (data : Data)
    (h : readFile fs p = .ok data) : isFileName (basename p "") = true := by
  have hn := (readFile_ok_namesFile fs p data h).1
  unfold namesFile at hn
  rw [Bool.and_eq_true] at hn
  rw [basename_empty_suffix]
  exact hn.2

theorem readFile_writeFile_same (fs : FS) (p : String) (data : Data)
    (h : namesFile p = true) : readFile (writeFile fs p data) p = .ok data := by
  unfold readFile writeFile
  rw [if_pos h]
  simp [List.lookup]

theorem isOutputOf_basename (fs : FS) (p d : String) (data : Data)
    (h : readFile fs p = .ok data) : isOutputOf p d (join d (basename p "")) :=
  ⟨basename p "", isFileName_basename fs p data h, rfl,
    join_eq_childPath d _ (isFileName_basename fs p data h), Or.inl rfl⟩

theorem isOutputOf_suffix (p d suffix : String) (hs : '/' ∉ suffix.data)
    (hlen : 3 ≤ suffix.data.length) :
    isOutputOf p d (join d (basename p (extname p) ++ suffix)) :=
  have hname := isFileName_append _ suffix (basename_extname_slashfree p) hs hlen
  ⟨_, hname, rfl, join_eq_childPath d _ hname, Or.inr ⟨suffix, rfl⟩⟩

theorem convertDocxToPdf_outputs (L : Libs) (fs : FS) (p d : String) (paths : List String)
    (hok : (convertDocxToPdf L fs p d).result = .ok paths) :
    ∀ q, q ∈ (convertDocxToPdf L fs p d).allWritten ++ paths → isOutputOf p d q := by
  unfold convertDocxToPdf at hok ⊢
  cases h : readFile fs p with
  | error e => rw [h] at hok; cases hok
  | ok data =>
    rw [h] at hok
    dsimp only at hok ⊢
    cases hl : L.libreConvert data ".pdf" with
    | error err => rw [hl] at hok; cases hok
    | ok done =>
      rw [hl] at hok
      simp only [Outcome.wrote, Except.ok.injEq] at hok
      subst hok
      intro q hq
      simp only [Outcome.wrote, Outcome.allWritten, List.map_nil, List.append_nil,
        List.mem_append, List.mem_singleton, or_self] at hq
      rw [hq]
      exact isOutputOf_suffix p d ".pdf" (by decide) (by decide)

theorem convertCsvToXlsx_outputs (L : Libs) (fs : FS) (p d : String) (paths : List String)
    (hok : (convertCsvToXlsx L fs p d).result = .ok paths) :
    ∀ q, q ∈ (convertCsvToXlsx L fs p d).allWritten ++ paths → isOutputOf p d q := by
  unfold convertCsvToXlsx at hok ⊢
  cases h : readFile fs p with
  | error e => rw [h] at hok; cases hok
  | ok data =>
    rw [h] at hok
    dsimp only at hok ⊢
    cases hl : L.xlsxWrite (csvWorkbook (csvRows (trim (L.utf8Decode data)))) with
    | error err => rw [hl] at hok; cases hok
    | ok bytes =>
      rw [hl] at hok
      simp only [Outcome.wrote, Except.ok.injEq] at hok
      subst hok
      intro q hq
      simp only [Outcome.wrote, Outcome.allWritten, List.map_nil, List.append_nil,
        List.mem_append, List.mem_singleton, or_self] at hq
      rw [hq]
      exact isOutputOf_suffix p d ".xlsx" (by decide) (by decide)

theorem convertImage_outputs (L : Libs) (fs : FS) (p t d : String) (paths : List String)
    (ht : t ∈ ["png", "jpg", "jpeg", "webp", "avif"])
    (hok : (convertImage L fs p t d).result = .ok paths) :
    ∀ q, q ∈ (convertImage L fs p t d).allWritten ++ paths → isOutputOf p d q := by
  have hsuf : '/' ∉ ("." ++ t).data ∧ 3 ≤ ("." ++ t).data.length := by
    simp only [List.mem_cons, List.mem_nil_iff, or_false] at ht
    rcases ht with h | h | h | h | h <;> subst h <;> decide
  unfold convertImage at hok ⊢
  cases h : readFile fs p with
  | error e => rw [h] at hok; cases hok
  | ok data =>
    rw [h] at hok
    dsimp only at hok ⊢
    cases hl : L.sharp p data t (join d (basename p (extname p) ++ "." ++ t)) with
    | error err => rw [hl] at hok; cases hok
    | ok encoded =>
      rw [hl] at hok
      simp only [Outcome.wrote, Except.ok.injEq] at hok
      subst hok
      intro q hq
      simp only [Outcome.wrote, Outcome.allWritten, List.map_nil, List.append_nil,
        List.mem_append, List.mem_singleton, or_self] at hq
      rw [hq, String.append_assoc]
      exact isOutputOf_suffix p d ("." ++ t) hsuf.1 hsuf.2

theorem pdfToImages_outputs (L : Libs) (fs : FS) (p d : String) (paths : List String)
    (hok : (pdfToImages L fs p d).result = .ok paths) :
    ∀ q, q ∈ (pdfToImages L fs p d).allWritten ++ paths → isOutputOf p d q := by
  unfold pdfToImages at hok ⊢
  cases h : readFile fs p with
  | error e => rw [h] at hok; cases hok
  | ok data =>
    rw [h] at hok
    dsimp only at hok ⊢
    cases hl : L.pdfLoad data with
    | error err => rw [hl] at hok; cases hok
    | ok count =>
      rw [hl] at hok
      simp only [Outcome.wrote, Except.ok.injEq] at hok
      subst hok
      intro q hq
      simp only [Outcome.wrote, Outcome.allWritten, List.map_nil, List.append_nil,
        List.mem_append, List.mem_singleton, or_self] at hq
      rw [hq]
      exact isOutputOf_basename fs p d data h

theorem copyThrough_outputs (fs : FS) (p d : String) (paths : List String)
    (hok : (copyThrough fs p d).result = .ok paths) :
    ∀ q, q ∈ (copyThrough fs p d).allWritten ++ paths → isOutputOf p d q := by
  unfold copyThrough at hok ⊢
  cases h : readFile fs p with
  | error e => rw [h] at hok; cases hok
  | ok data =>
    rw [h] at hok
    simp only [Outcome.wrote, Except.ok.injEq] at hok
    subst hok
    intro q hq
    simp only [Outcome.wrote, Outcome.allWritten, List.map_nil, List.append_nil,
      List.mem_append, List.mem_singleton, or_self] at hq
    rw [hq]
    exact isOutputOf_basename fs p d data h

theorem convertXlsxToCsv_ok (L : Libs) (fs : FS) (p d : String) (data : Data)
    (workbook : Workbook) (h : readFile fs p = .ok data) (hw : L.xlsxRead data = .ok workbook) :
    convertXlsxToCsv L fs p d =
      { result := .ok [], fs := fs, written := []
        pending := workbook.sheets.map fun worksheet =>
          (sheetOutPath p d worksheet.id, L.utf8Encode (sheetCsv worksheet.rows))
        strategy := some .xlsxToCsv } := by
  unfold convertXlsxToCsv
  rw [h]
  dsimp only
  rw [hw]

theorem convertXlsxToCsv_outputs (L : Libs) (fs : FS) (p d : String) (paths : List String)
    (hok : (convertXlsxToCsv L fs p d).result = .ok paths) :
    ∀ q, q ∈ (convertXlsxToCsv L fs p d).allWritten ++ paths → isOutputOf p d q := by
  cases h : readFile fs p with
  | error e =>
    unfold convertXlsxToCsv at hok
    rw [h] at hok
    cases hok
  | ok data =>
    cases hl : L.xlsxRead data with
    | error err =>
      unfold convertXlsxToCsv at hok
      rw [h] at hok
      dsimp only at hok
      rw [hl] at hok
      cases hok
    | ok workbook =>
      rw [convertXlsxToCsv_ok L fs p d data workbook h hl] at hok ⊢
      simp only [Except.ok.injEq] at hok
      subst hok
      intro q hq
      simp only [Outcome.allWritten, List.nil_append, List.append_nil, List.map_map,
        List.mem_map, Function.comp] at hq
      obtain ⟨ws, _, rfl⟩ := hq
      have hs : '/' ∉ ("_" ++ toString ws.id ++ ".csv").data ∧
          3 ≤ ("_" ++ toString ws.id ++ ".csv").data.length := by
        simp only [String.data_append, List.mem_append, List.length_append, not_or]
        exact ⟨⟨⟨by decide, toString_nat_slashfree ws.id⟩, by decide⟩,
          le_trans (show 3 ≤ 4 by decide) (Nat.le_add_left _ _)⟩
      have := isOutputOf_suffix p d ("_" ++ toString ws.id ++ ".csv") hs.1 hs.2
      simpa [sheetOutPath, String.append_assoc] using this

theorem convertFile_outputs (L : Libs) (fs : FS) (p t d : String) (paths : List String)
    (hok : (convertFile L fs p t d).result = .ok paths) :
    ∀ q, q ∈ (convertFile L fs p t d).allWritten ++ paths → isOutputOf p d q := by
  rw [convertFile_eq] at hok ⊢
  cases h : firstMatch routingTable p t with
  | none =>
    rw [h] at hok
    cases hok
  | some s =>
    rw [h] at hok
    cases s
    · exact convertDocxToPdf_outputs L fs p d paths hok
    · exact convertXlsxToCsv_outputs L fs p d paths hok
    · exact convertCsvToXlsx_outputs L fs p d paths hok
    · have hr : ruleHolds .image p t = true :=
        @List.find?_some _ (fun s => ruleHolds s p t) _ routingTable h
      exact convertImage_outputs L fs p t d paths ((ruleHolds_image p t).1 hr).2 hok
    · exact pdfToImages_outputs L fs p d paths hok
    · exact copyThrough_outputs fs p d paths hok

/-! ## Lemmas: extensions -/

theorem splitOnChar_length_le (sep : Char) (l seg : List Char)
    (h : seg ∈ splitOnChar sep l) : seg.length ≤ l.length := by
  induction l generalizing seg with
  | nil => simp [splitOnChar] at h; simp [h]
  | cons c cs ih =>
    by_cases hc : c = sep
    · rw [splitOnChar, if_pos hc] at h
      rcases List.mem_cons.1 h with h | h
      · simp [h]
      · exact le_trans (ih seg h) (Nat.le_succ _)
    · obtain ⟨s, rest, hs, hcs⟩ := splitOnChar_cons_ne sep c cs hc
      rw [hcs] at h
      rcases List.mem_cons.1 h with h | h
      · have := ih s (by rw [hs]; exact List.mem_cons_self _ _)
        subst h
        simpa using this
      · exact le_trans (ih seg (by rw [hs]; exact List.mem_cons_of_mem _ h)) (Nat.le_succ _)

theorem lastComponent_length_le (p : List Char) : (lastComponent p).length ≤ p.length := by
  unfold lastComponent
  cases h : (components p).getLast? with
  | none => simp
  | some seg =>
    have hmem := List.mem_of_getLast?_eq_some h
    unfold components at hmem
    exact splitOnChar_length_le '/' p seg (List.mem_filter.1 hmem).1

theorem extOfComponent_eq (base tw before : List Char)
    (hrev : base.reverse = tw ++ '.' :: before) (htw : '.' ∉ tw) :
    extOfComponent base =
      if before = [] then [] else if base = ['.', '.'] then [] else '.' :: tw.reverse := by
  have hall : ∀ c ∈ tw, (fun c => decide (c ≠ '.')) c = true := by
    intro c hc
    have : c ≠ '.' := fun e => htw (by rw [← e]; exact hc)
    simpa using this
  have hdrop : List.dropWhile (fun c => decide (c ≠ '.')) (tw ++ '.' :: before)
      = '.' :: before := by
    rw [List.dropWhile_append_of_pos hall]
    simp
  have htake : List.takeWhile (fun c => decide (c ≠ '.')) (tw ++ '.' :: before) = tw := by
    rw [List.takeWhile_append_of_pos hall]
    simp
  unfold extOfComponent
  simp only [hrev, hdrop, htake]

theorem extOfComponent_nodot (base : List Char) (h : '.' ∉ base) : extOfComponent base = [] := by
  have hdrop : List.dropWhile (fun c => decide (c ≠ '.')) base.reverse = [] := by
    rw [List.dropWhile_eq_nil_iff]
    intro c hc
    have : c ≠ '.' := fun e => h (by rw [← e]; exact List.mem_reverse.1 hc)
    simpa using this
  unfold extOfComponent
  simp only [hdrop]

theorem extOfComponent_decompose (base : List Char) (h : extOfComponent base ≠ []) :
    ∃ stem, stem ≠ [] ∧ base = stem ++ extOfComponent base := by
  by_cases hdot : '.' ∈ base
  · obtain ⟨tw, before, hrev, htw⟩ :=
      List.eq_append_cons_of_mem (List.mem_reverse.2 hdot)
    have heq := extOfComponent_eq base tw before hrev htw
    rw [heq] at h ⊢
    split_ifs at h ⊢ with h1 h2
    · exact absurd rfl h
    · exact absurd rfl h
    · refine ⟨before.reverse, by simpa using h1, ?_⟩
      have := congrArg List.reverse hrev
      rw [List.reverse_reverse] at this
      rw [this]
      simp
  · exact absurd (extOfComponent_nodot base hdot) h

theorem extOfComponent_append (stem e : List Char) (hs : stem ≠ []) (he : '.' ∉ e)
    (hne : e ≠ []) : extOfComponent (stem ++ '.' :: e) = '.' :: e := by
  have hrev : (stem ++ '.' :: e).reverse = e.reverse ++ '.' :: stem.reverse := by simp
  rw [extOfComponent_eq _ e.reverse stem.reverse hrev (fun h => he (List.mem_reverse.1 h)),
    if_neg (by simpa using hs), if_neg, List.reverse_reverse]
  intro h
  have hl := congrArg List.length h
  have h1 : 0 < stem.length := List.length_pos.2 hs
  have h2 : 0 < e.length := List.length_pos.2 hne
  simp only [List.length_append, List.length_cons, List.length_nil] at hl
  omega

theorem basename_extname_stem (p : String) (h : (extname p).data ≠ []) :
    (basename p (extname p)).data ≠ [] ∧
    lastComponent p.data = (basename p (extname p)).data ++ (extname p).data := by
  obtain ⟨stem, hstem, hbase⟩ := extOfComponent_decompose (lastComponent p.data) h
  have hlen := lastComponent_length_le p.data
  have hl : (lastComponent p.data).length =
      stem.length + (extOfComponent (lastComponent p.data)).length := by
    conv_lhs => rw [hbase]
    rw [List.length_append]
  have hpos : 0 < stem.length := List.length_pos.2 hstem
  have hb : basename p (extname p) = ⟨stem⟩ := by
    unfold basename
    simp only [extname] at h ⊢
    rw [if_pos ⟨h, by omega⟩, if_neg, if_pos]
    · congr 1
      rw [hl, Nat.add_sub_cancel, hbase]
      exact List.take_left' rfl
    · refine ⟨by omega, ?_⟩
      rw [List.isSuffixOf_iff_suffix]
      exact ⟨stem, hbase.symm⟩
    · intro e
      have := congrArg (fun s => s.data.length) e
      simp only at this
      omega
  rw [hb]
  exact ⟨hstem, hbase⟩

/-! ## Lemmas: CSV text -/

theorem joinWith_cons (sep x : List Char) (rest : List (List Char)) :
    joinWith sep (x :: rest) = x ++ (rest.map fun y => sep ++ y).flatten := by
  induction rest generalizing x with
  | nil => simp [joinWith]
  | cons y rest ih => rw [joinWith, ih y]; simp [List.append_assoc]

theorem intercalate_go_data (acc sep : String) (l : List String) :
    (String.intercalate.go acc sep l).data =
      acc.data ++ (l.map fun a => sep.data ++ a.data).flatten := by
  induction l generalizing acc with
  | nil => simp [String.intercalate.go]
  | cons a rest ih => simp [String.intercalate.go, ih, String.data_append, List.append_assoc]

theorem data_intercalate (sep : String) (l : List String) :
    (String.intercalate sep l).data = joinWith sep.data (l.map String.data) := by
  cases l with
  | nil => rfl
  | cons a rest =>
    rw [String.intercalate, intercalate_go_data, List.map_cons, joinWith_cons, List.map_map]
    rfl

theorem doubleQuotes_eq_flatten (l : List Char) :
    doubleQuotes l =
      (l.map fun c => if c = dquote then [dquote, dquote] else [c]).flatten := by
  induction l with
  | nil => rfl
  | cons c cs ih =>
    rw [doubleQuotes, List.map_cons, List.flatten_cons, ← ih]
    split_ifs <;> rfl

theorem csvField_eq_specField (v : Cell) : csvField v = specField v := by
  cases v with
  | value str =>
    apply String.ext
    simp only [csvField, specField, quotedField, String.data_append, String.data_join,
      List.map_map, doubleQuotes_eq_flatten]
    have : (String.data ∘ fun c => if c = dquote then String.mk [dquote, dquote]
        else String.singleton c) = fun c => if c = dquote then [dquote, dquote] else [c] := by
      funext c
      simp only [Function.comp]
      split_ifs <;> rfl
    rw [this]
    rfl
  | hole => rfl
  | undefined => rfl
  | null => rfl

theorem sheetCsv_eq_specCsv (rows : List (List Cell)) : sheetCsv rows = specCsv rows := by
  apply String.ext
  simp only [sheetCsv, specCsv, data_intercalate, List.map_map]
  congr 1
  apply List.map_congr_left
  intro r _
  simp only [Function.comp, data_intercalate, List.map_map]
  congr 1
  apply List.map_congr_left
  intro v _
  simp only [Function.comp, csvField_eq_specField]

theorem mem_joinWith (sep : List Char) (pieces : List (List Char)) (c : Char)
    (h : c ∈ joinWith sep pieces) : c ∈ sep ∨ ∃ l ∈ pieces, c ∈ l := by
  induction pieces with
  | nil => simp [joinWith] at h
  | cons x rest ih =>
    cases rest with
    | nil => exact Or.inr ⟨x, List.mem_cons_self _ _, by simpa [joinWith] using h⟩
    | cons y rest =>
      rw [joinWith, List.mem_append, List.mem_append] at h
      rcases h with (h | h) | h
      · exact Or.inr ⟨x, List.mem_cons_self _ _, h⟩
      · exact Or.inl h
      · rcases ih h with h | ⟨l, hl, hc⟩
        · exact Or.inl h
        · exact Or.inr ⟨l, List.mem_cons_of_mem _ hl, hc⟩

theorem dropTrailingCR_eq_self (l : List Char) (h : '\r' ∉ l) : dropTrailingCR l = l := by
  unfold dropTrailingCR
  rw [if_neg (getLast?_ne_of_not_mem _ _ h)]

theorem stripCRs_eq_self (pieces : List (List Char)) (h : ∀ l ∈ pieces, '\r' ∉ l) :
    stripCRs pieces = pieces := by
  induction pieces with
  | nil => rfl
  | cons x rest ih =>
    cases rest with
    | nil => rfl
    | cons y rest =>
      rw [stripCRs, dropTrailingCR_eq_self x (h x (List.mem_cons_self _ _)),
        ih (fun l hl => h l (List.mem_cons_of_mem _ hl))]

theorem doubleQuotes_eq_self (l : List Char) (h : dquote ∉ l) : doubleQuotes l = l := by
  induction l with
  | nil => rfl
  | cons c cs ih =>
    simp only [List.mem_cons, not_or] at h
    rw [doubleQuotes, if_neg (fun e => h.1 e.symm), ih h.2]

theorem csvText_data (rows : List (List String)) :
    (csvText rows).data =
      joinWith ['\n'] (rows.map fun r => joinWith [','] (r.map String.data)) := by
  simp only [csvText, data_intercalate, List.map_map]
  congr 1
  apply List.map_congr_left
  intro r _
  simp only [Function.comp, data_intercalate]

theorem csvRows_csvText (rows : List (List String)) (hrows : properRows rows)
    (hplain : plainFields rows) : csvRows (csvText rows) = rows := by
  have hline : ∀ r ∈ rows, ∀ c ∈ joinWith [','] (r.map String.data), c ≠ '\n' ∧ c ≠ '\r' := by
    intro r hr c hc
    rcases mem_joinWith _ _ c hc with h | ⟨l, hl, hcl⟩
    · rw [List.mem_singleton.1 h]
      decide
    · obtain ⟨field, hf, rfl⟩ := List.mem_map.1 hl
      have := hplain r hr field hf
      exact ⟨fun e => this.2.2.1 (e ▸ hcl), fun e => this.2.2.2 (e ▸ hcl)⟩
  have hsplit : splitOnChar '\n' (csvText rows).data =
      rows.map fun r => joinWith [','] (r.map String.data) := by
    rw [csvText_data]
    apply splitOnChar_joinWith
    · simpa using hrows.1
    · intro l hl hmem
      obtain ⟨r, hr, rfl⟩ := List.mem_map.1 hl
      exact (hline r hr _ hmem).1 rfl
  unfold csvRows splitLines
  rw [hsplit, stripCRs_eq_self, List.map_map]
  · conv_rhs => rw [← List.map_id rows]
    apply List.map_congr_left
    intro r hr
    simp only [Function.comp, id]
    rw [splitOnChar_joinWith ',' _ (by simpa using hrows.2 r hr), List.map_map]
    · conv_rhs => rw [← List.map_id r]
      apply List.map_congr_left
      intro field _
      rfl
    · intro l hl
      obtain ⟨field, hf, rfl⟩ := List.mem_map.1 hl
      exact (hplain r hr field hf).1
  · intro l hl hmem
    obtain ⟨r, hr, rfl⟩ := List.mem_map.1 hl
    exact (hline r hr _ hmem).2 rfl

theorem sheetCsv_values (rows : List (List String)) (hplain : plainFields rows) :
    sheetCsv (rows.map fun r => r.map Cell.value) = quotedCsvText rows := by
  apply String.ext
  simp only [sheetCsv, quotedCsvText, data_intercalate, List.map_map]
  congr 1
  apply List.map_congr_left
  intro r hr
  simp only [Function.comp, data_intercalate, List.map_map]
  congr 1
  apply List.map_congr_left
  intro field hf
  simp only [Function.comp, csvField, String.data_append,
    doubleQuotes_eq_self _ (hplain r hr field hf).2.1]
  rfl

theorem roundTripCsv_csvText (rows : List (List String)) (hrows : properRows rows)
    (hplain : plainFields rows) (htrim : trim (csvText rows) = csvText rows) :
    roundTripCsv (csvText rows) = [quotedCsvText rows] := by
  unfold roundTripCsv
  rw [htrim, csvRows_csvText rows hrows hplain]
  simp only [csvWorkbook, List.map_cons, List.map_nil, sheetCsv_values rows hplain]

theorem extname_join_xlsx (d stem : String) (hs : stem.data ≠ []) (hslash : '/' ∉ stem.data) :
    extname (join d (stem ++ ".xlsx")) = ".xlsx" := by
  have hname : isFileName (stem ++ ".xlsx") = true :=
    isFileName_append stem ".xlsx" hslash (by decide) (by decide)
  unfold extname
  rw [join_eq_childPath d _ hname, lastComponent_childPath d _ hname, String.data_append]
  have : (".xlsx" : String).data = '.' :: ['x', 'l', 's', 'x'] := rfl
  rw [this, extOfComponent_append stem.data _ hs (by decide) (by decide)]

theorem namesFile_sheetOutPath (p d : String) (sheetId : Nat) :
    namesFile (sheetOutPath p d sheetId) = true := by
  unfold sheetOutPath
  apply namesFile_join
  rw [String.append_assoc, String.append_assoc]
  apply isFileName_append _ _ (basename_extname_slashfree p)
  · simp only [String.data_append, List.mem_append, not_or]
    exact ⟨by decide, toString_nat_slashfree sheetId, by decide⟩
  · simp only [String.data_append, List.length_append]
    exact le_trans (show 3 ≤ 4 by decide) (Nat.le_add_left _ _)

theorem convertCsvToXlsx_ok (L : Libs) (fs : FS) (p d : String) (data bytes : Data)
    (rows : List (List String)) (hfile : readFile fs p = .ok data)
    (hrows : csvRows (trim (L.utf8Decode data)) = rows)
    (hwrite : L.xlsxWrite (csvWorkbook rows) = .ok bytes) :
    convertCsvToXlsx L fs p d =
      Outcome.wrote fs .csvToXlsx (join d (basename p (extname p) ++ ".xlsx")) bytes := by
  unfold convertCsvToXlsx
  rw [hfile]
  dsimp only
  rw [hrows, hwrite]

/-! ## Lemmas: the job service -/

theorem isUuid_isFileName (s : String) (h : isUuid s = true) : isFileName s = true := by
  unfold isUuid at h
  rw [Bool.and_eq_true, decide_eq_true_eq, List.all_eq_true] at h
  obtain ⟨hlen, hall⟩ := h
  rw [isFileName_iff]
  refine ⟨?_, ?_, ?_, ?_⟩
  · intro e
    rw [e] at hlen
    simp at hlen
  · intro hmem
    have := hall '/' hmem
    revert this
    decide
  · intro e
    rw [e] at hlen
    simp at hlen
  · intro e
    rw [e] at hlen
    simp at hlen

/-! ## Lower-casing beyond ASCII -/

/-- The lower-case forms of `.Ñ`, of `.K` written with the Kelvin sign, and of
`.İ` (capital I with dot above). -/
theorem toLowerCase_beyond_ascii :
    toLowerCase ⟨['.', Char.ofNat 0xD1]⟩ = ⟨['.', Char.ofNat 0xF1]⟩ ∧
    toLowerCase ⟨['.', Char.ofNat 0x212A]⟩ = ".k" ∧
    toLowerCase ⟨['.', Char.ofNat 0x130]⟩ = ⟨['.', 'i', Char.ofNat 0x307]⟩ := by
  decide

set_option maxRecDepth 8000 in
/-- A capital sigma after a cased letter at the end of the string becomes the
final sigma, one followed by a letter the small sigma. -/
theorem toLowerCase_sigma :
    toLowerCase ⟨['.', Char.ofNat 0x391, Char.ofNat 0x3A3]⟩
      = ⟨['.', Char.ofNat 0x3B1, Char.ofNat 0x3C2]⟩ ∧
    toLowerCase ⟨['.', Char.ofNat 0x3A3, 'A']⟩ = ⟨['.', Char.ofNat 0x3C3, 'a']⟩ := by
  decide

/-- A file `a.Ñ` with target `Ñ` is rejected, the extension being lower-cased to
`.ñ`; a file `b.K` with the Kelvin sign and target `k` is copied. -/
theorem convertFile_beyond_ascii :
    (convertFile sampleLibs [(⟨['u', 'p', '/', 'a', '.', Char.ofNat 0xD1]⟩, [1])]
        ⟨['u', 'p', '/', 'a', '.', Char.ofNat 0xD1]⟩ ⟨[Char.ofNat 0xD1]⟩ "out").result
      = .error (.unsupported ⟨['.', Char.ofNat 0xF1]⟩ ⟨[Char.ofNat 0xD1]⟩) ∧
    (convertFile sampleLibs [(⟨['u', 'p', '/', 'b', '.', Char.ofNat 0x212A]⟩, [1])]
        ⟨['u', 'p', '/', 'b', '.', Char.ofNat 0x212A]⟩ "k" "out").result
      = .ok [⟨['o', 'u', 't', '/', 'b', '.', Char.ofNat 0x212A]⟩] := by
  decide

/-! ## The claims -/

/-- C1: `convertFile` selects its strategy by the first matching rule of the
routing table, the extension compared in lower case; the strategy it runs is
one whose rule the input satisfies; and an input that satisfies one of rules
1 to 5 is handled by the first of them that matches, never by the pass-through
rule. -/
theorem convertFile_routes_by_first_match (L : Libs) (fs : FS) (p t d : String) :
    (convertFile L fs p t d).strategy = firstMatch routingTable p t ∧
    (∀ s, (convertFile L fs p t d).strategy = some s → ruleHolds s p t = true) ∧
    (∀ s, s ∈ rules1to5 → ruleHolds s p t = true →
      (convertFile L fs p t d).strategy = firstMatch rules1to5 p t ∧
      (convertFile L fs p t d).strategy ≠ some .passThrough) := by
  refine ⟨convertFile_strategy L fs p t d, ?_, ?_⟩
  · intro s hs
    rw [convertFile_strategy] at hs
    unfold firstMatch at hs
    exact @List.find?_some _ (fun s => ruleHolds s p t) s routingTable hs
  · intro s hmem hrule
    have hsome : ∃ s', firstMatch rules1to5 p t = some s' := by
      cases hf : firstMatch rules1to5 p t with
      | some s' => exact ⟨s', rfl⟩
      | none =>
        have := List.find?_eq_none.1 hf s hmem
        exact absurd hrule this
    obtain ⟨s', hs'⟩ := hsome
    have heq : (convertFile L fs p t d).strategy = firstMatch rules1to5 p t := by
      rw [convertFile_strategy, firstMatch_append_passThrough, hs']
      rfl
    refine ⟨heq, ?_⟩
    rw [heq]
    exact firstMatch_rules1to5_ne_passThrough p t

/-- A `png` input with target `png` is re-encoded by the image library, not copied. -/
theorem png_to_png_is_reencoded :
    (convertFile sampleLibs [("up/a.png", [1, 2])] "up/a.png" "png" "out").strategy
      = some .image := by
  decide

/-- The dispatcher ends in its final `throw` exactly when none of rules 1 to 5
holds and the fallback test fails; the error then carries the lower-cased
extension and the target format, and nothing is written. -/
theorem convertFile_unsupported_iff (L : Libs) (fs : FS) (p t d : String) :
    ((∃ a b, (convertFile L fs p t d).result = .error (.unsupported a b)) ↔
      firstMatch routingTable p t = none) ∧
    (firstMatch routingTable p t = none →
      (convertFile L fs p t d).result = .error (.unsupported (toLowerCase (extname p)) t) ∧
      (ConvError.unsupported (toLowerCase (extname p)) t).message =
        "Conversion from " ++ toLowerCase (extname p) ++ " to " ++ t ++
          " not supported in this prototype." ∧
      (convertFile L fs p t d).fs = fs ∧
      (convertFile L fs p t d).allWritten = []) := by
  have hnone : firstMatch routingTable p t = none →
      convertFile L fs p t d =
        Outcome.fail fs none (.unsupported (toLowerCase (extname p)) t) := by
    intro h
    rw [convertFile_eq, h]
  refine ⟨⟨?_, ?_⟩, ?_⟩
  · rintro ⟨a, b, hab⟩
    rw [convertFile_eq] at hab
    cases h : firstMatch routingTable p t with
    | none => rfl
    | some s =>
      rw [h] at hab
      cases s
      · exact absurd hab (convertDocxToPdf_not_unsupported L fs p d a b)
      · exact absurd hab (convertXlsxToCsv_not_unsupported L fs p d a b)
      · exact absurd hab (convertCsvToXlsx_not_unsupported L fs p d a b)
      · exact absurd hab (convertImage_not_unsupported L fs p t d a b)
      · exact absurd hab (pdfToImages_not_unsupported L fs p d a b)
      · exact absurd hab (copyThrough_not_unsupported fs p d a b)
  · intro h
    exact ⟨_, _, by rw [hnone h]; rfl⟩
  · intro h
    rw [hnone h]
    exact ⟨rfl, rfl, rfl, rfl⟩

/-- A `.png` file with target `xlsx` is rejected and nothing is written. -/
theorem convertFile_unsupported_png_xlsx :
    (convertFile sampleLibs [("up/a.png", [1, 2])] "up/a.png" "xlsx" "out").result
        = .error (.unsupported ".png" "xlsx") ∧
    (convertFile sampleLibs [("up/a.png", [1, 2])] "up/a.png" "xlsx" "out").fs
        = [("up/a.png", [1, 2])] := by
  decide

theorem firstMatch_routingTable_eq_none (p t : String) :
    firstMatch routingTable p t = none ↔
      firstMatch rules1to5 p t = none ∧ t ≠ eraseFirstDot (toLowerCase (extname p)) := by
  rw [firstMatch_append_passThrough]
  cases h5 : firstMatch rules1to5 p t with
  | some s => simp
  | none =>
    by_cases hp : t = eraseFirstDot (toLowerCase (extname p))
    · rw [(ruleHolds_passThrough p t).2 hp]
      constructor
      · intro h
        simp at h
      · intro h
        exact absurd hp h.2
    · rw [eq_false_of_iff (ruleHolds_passThrough p t) hp]
      constructor
      · intro _
        exact ⟨rfl, hp⟩
      · intro _
        rfl

/-- C2, counterexample: for `data.json` with target `JSON` rule 6 of the
specification matches, the target being the extension when the two are compared
case-insensitively, and yet `convertFile` fails with the unsupported-conversion
error. -/
theorem unsupported_although_rule6_matches :
    sameExtensionIgnoringCase "up/data.json" "JSON" = true ∧
    (convertFile sampleLibs [("up/data.json", [1, 2])] "up/data.json" "JSON" "out").result
      = .error (.unsupported ".json" "JSON") := by
  decide

/-- C2, amended: `convertFile` never fails with the unsupported-conversion
error when one of rules 1 to 5 matches or the target format is, as a plain
string, the lower-cased extension of the input without its dot; and it fails
with that error whenever none of rules 1 to 5 matches and the target format is
neither that lower-cased extension nor the extension as it is written. The
error then names the lower-cased source extension and the target format, and
nothing is written: the file system is as it was and no write is in flight. -/
theorem convertFile_unsupported_cases (L : Libs) (fs : FS) (p t d : String) :
    ((firstMatch rules1to5 p t ≠ none ∨ t = eraseFirstDot (toLowerCase (extname p))) →
      ∀ a b, (convertFile L fs p t d).result ≠ .error (.unsupported a b)) ∧
    (firstMatch rules1to5 p t = none →
      t ≠ eraseFirstDot (toLowerCase (extname p)) → t ≠ eraseFirstDot (extname p) →
      (convertFile L fs p t d).result = .error (.unsupported (toLowerCase (extname p)) t) ∧
      (ConvError.unsupported (toLowerCase (extname p)) t).message =
        "Conversion from " ++ toLowerCase (extname p) ++ " to " ++ t ++
          " not supported in this prototype." ∧
      (convertFile L fs p t d).fs = fs ∧
      (convertFile L fs p t d).allWritten = []) := by
  have hiff := convertFile_unsupported_iff L fs p t d
  refine ⟨?_, ?_⟩
  · intro hmatch a b hab
    have hnone := hiff.1.1 ⟨a, b, hab⟩
    rw [firstMatch_routingTable_eq_none] at hnone
    rcases hmatch with h | h
    · exact h hnone.1
    · exact hnone.2 h
  · intro h5 hlower _
    exact hiff.2 ((firstMatch_routingTable_eq_none p t).2 ⟨h5, hlower⟩)

/-- C3, counterexample: for `notes.txt` with target `TXT` no rule 1 to 5
matches and the target equals the extension when compared case-insensitively,
yet `convertFile` does not copy the file: it fails as unsupported. -/
theorem passThrough_ignoring_case_fails :
    firstMatch rules1to5 "up/notes.txt" "TXT" = none ∧
    sameExtensionIgnoringCase "up/notes.txt" "TXT" = true ∧
    readFile [("up/notes.txt", [1, 2])] "up/notes.txt" = .ok [1, 2] ∧
    (convertFile sampleLibs [("up/notes.txt", [1, 2])] "up/notes.txt" "TXT" "out").result
      = .error (.unsupported ".txt" "TXT") := by
  decide

/-- A request for the extension as the file name writes it, in upper case, is
rejected: `notes.TXT` with target `TXT` fails as unsupported, the comment on
the fallback (`if same extension requested`) notwithstanding. -/
theorem convertFile_upper_case_own_extension :
    eraseFirstDot (extname "up/notes.TXT") = "TXT" ∧
    (convertFile sampleLibs [("up/notes.TXT", [1, 2])] "up/notes.TXT" "TXT" "out").result
      = .error (.unsupported ".txt" "TXT") := by
  decide

/-- C3, amended: when no rule 1 to 5 matches and the target format is, as a
plain string, the lower-cased extension of the input without its dot, then for
a readable input file `convertFile` performs the pass-through copy and returns
exactly one path, `outputDir` joined with the input's base name. -/
theorem convertFile_passThrough (L : Libs) (fs : FS) (p t d : String) (data : Data)
    (hnone : firstMatch rules1to5 p t = none)
    (hsame : t = eraseFirstDot (toLowerCase (extname p)))
    (hfile : readFile fs p = .ok data) :
    (convertFile L fs p t d).strategy = some .passThrough ∧
    (convertFile L fs p t d).result = .ok [join d (basename p "")] ∧
    (convertFile L fs p t d).fs = writeFile fs (join d (basename p "")) data ∧
    (convertFile L fs p t d).allWritten = [join d (basename p "")] := by
  have hm : firstMatch routingTable p t = some .passThrough := by
    rw [firstMatch_append_passThrough, hnone, (ruleHolds_passThrough p t).2 hsame]
    rfl
  rw [convertFile_eq, hm]
  dsimp only
  rw [copyThrough_ok fs p d data hfile]
  exact ⟨rfl, rfl, rfl, rfl⟩

/-- C3, amended, at `notes.TXT` with target `txt`. -/
theorem convertFile_passThrough_witness :
    (convertFile sampleLibs [("up/notes.TXT", [1, 2])] "up/notes.TXT" "txt" "out").strategy
        = some .passThrough ∧
    (convertFile sampleLibs [("up/notes.TXT", [1, 2])] "up/notes.TXT" "txt" "out").result
        = .ok [join "out" (basename "up/notes.TXT" "")] ∧
    (convertFile sampleLibs [("up/notes.TXT", [1, 2])] "up/notes.TXT" "txt" "out").fs
        = writeFile [("up/notes.TXT", [1, 2])] (join "out" (basename "up/notes.TXT" "")) [1, 2] ∧
    (convertFile sampleLibs [("up/notes.TXT", [1, 2])] "up/notes.TXT" "txt" "out").allWritten
        = [join "out" (basename "up/notes.TXT" "")] :=
  convertFile_passThrough sampleLibs [("up/notes.TXT", [1, 2])] "up/notes.TXT" "txt" "out"
    [1, 2] (by decide) (by decide) (by decide)

theorem sameExtension_routes_to_passThrough (p t : String)
    (himg : toLowerCase (extname p) ∉ [".png", ".jpg", ".jpeg"])
    (hsame : t = eraseFirstDot (toLowerCase (extname p))) :
    firstMatch routingTable p t = some .passThrough := by
  rw [firstMatch_routingTable]
  split_ifs with h1 h2 h3 h4 h5
  · exfalso
    obtain ⟨hm, ht⟩ := h1
    rw [ht] at hsame
    simp only [List.mem_cons, List.mem_nil_iff, or_false] at hm
    rcases hm with h | h | h <;> rw [h] at hsame <;> revert hsame <;> decide
  · exfalso
    obtain ⟨hm, ht⟩ := h2
    rw [ht] at hsame
    simp only [List.mem_cons, List.mem_nil_iff, or_false] at hm
    rw [hm] at hsame
    revert hsame
    decide
  · exfalso
    obtain ⟨hm, ht⟩ := h3
    rw [ht, hm] at hsame
    revert hsame
    decide
  · exact absurd h4.1 himg
  · exfalso
    obtain ⟨hm, ht⟩ := h5
    rw [hm] at hsame
    rw [hsame] at ht
    revert ht
    decide
  · rfl

/-- C4, counterexample: a `png` file converted to `png`, its own extension, is
handed to the image library, and the one file written holds what the library
produced, here not the bytes of the input. -/
theorem sameExtension_png_is_not_copied :
    toLowerCase (extname "up/a.png") = ".png" ∧
    readFile [("up/a.png", [1, 2])] "up/a.png" = .ok [1, 2] ∧
    (convertFile sampleLibs [("up/a.png", [1, 2])] "up/a.png" "png" "out").result
      = .ok ["out/a.png"] ∧
    readFile (convertFile sampleLibs [("up/a.png", [1, 2])] "up/a.png" "png" "out").fs
      "out/a.png" = .ok [3, 1, 2] := by
  decide

theorem image_name_isFileName (p t : String)
    (ht : t ∈ ["png", "jpg", "jpeg", "webp", "avif"]) :
    isFileName (basename p (extname p) ++ "." ++ t) = true := by
  have hsuf : '/' ∉ ("." ++ t).data ∧ 3 ≤ ("." ++ t).data.length := by
    simp only [List.mem_cons, List.mem_nil_iff, or_false] at ht
    rcases ht with h | h | h | h | h <;> subst h <;> decide
  rw [String.append_assoc]
  exact isFileName_append _ ("." ++ t) (basename_extname_slashfree p) hsuf.1 hsuf.2

theorem convertImage_ok (L : Libs) (fs : FS) (p t d : String) (data encoded : Data)
    (hfile : readFile fs p = .ok data)
    (hsharp : L.sharp p data t (join d (basename p (extname p) ++ "." ++ t)) = .ok encoded) :
    convertImage L fs p t d =
      Outcome.wrote fs .image (join d (basename p (extname p) ++ "." ++ t)) encoded := by
  unfold convertImage
  dsimp only
  rw [hfile]
  dsimp only
  rw [hsharp]

theorem sameExtension_routes_to_image (p t : String)
    (himg : toLowerCase (extname p) ∈ [".png", ".jpg", ".jpeg"])
    (hsame : t = eraseFirstDot (toLowerCase (extname p))) :
    firstMatch routingTable p t = some .image ∧ t ∈ ["png", "jpg", "jpeg", "webp", "avif"] := by
  rw [firstMatch_routingTable, hsame]
  simp only [List.mem_cons, List.mem_nil_iff, or_false] at himg
  rcases himg with h | h | h <;> rw [h] <;> decide

/-- C4, amended: let the target format be the lower-cased extension of a
readable input file, without its dot. When that extension is not `.png`, `.jpg`
or `.jpeg`, `convertFile` writes exactly one file, `outputDir` joined with the
input's base name, returns its path, and the file's bytes are those of the
input. When it is one of the three, the image strategy is invoked, and when the
image library succeeds exactly one file is written and returned, `outputDir`
joined with the base name without its extension, a dot and the target format,
and its bytes are those the library produced. -/
theorem convertFile_same_extension (L : Libs) (fs : FS) (p t d : String) (data : Data)
    (hsame : t = eraseFirstDot (toLowerCase (extname p)))
    (hfile : readFile fs p = .ok data) :
    (toLowerCase (extname p) ∉ [".png", ".jpg", ".jpeg"] →
      (convertFile L fs p t d).result = .ok [join d (basename p "")] ∧
      (convertFile L fs p t d).allWritten = [join d (basename p "")] ∧
      readFile (convertFile L fs p t d).fs (join d (basename p "")) = .ok data) ∧
    (toLowerCase (extname p) ∈ [".png", ".jpg", ".jpeg"] →
      (convertFile L fs p t d).strategy = some .image ∧
      ∀ encoded, L.sharp p data t (join d (basename p (extname p) ++ "." ++ t)) = .ok encoded →
        (convertFile L fs p t d).result = .ok [join d (basename p (extname p) ++ "." ++ t)] ∧
        (convertFile L fs p t d).allWritten = [join d (basename p (extname p) ++ "." ++ t)] ∧
        readFile (convertFile L fs p t d).fs (join d (basename p (extname p) ++ "." ++ t))
          = .ok encoded) := by
  refine ⟨?_, ?_⟩
  · intro himg
    rw [convertFile_eq, sameExtension_routes_to_passThrough p t himg hsame]
    dsimp only
    rw [copyThrough_ok fs p d data hfile]
    refine ⟨rfl, rfl, ?_⟩
    exact readFile_writeFile_same fs _ data
      (namesFile_join d _ (isFileName_basename fs p data hfile))
  · intro himg
    obtain ⟨hm, ht⟩ := sameExtension_routes_to_image p t himg hsame
    refine ⟨by rw [convertFile_strategy, hm], ?_⟩
    intro encoded hsharp
    rw [convertFile_eq, hm]
    dsimp only
    rw [convertImage_ok L fs p t d data encoded hfile hsharp]
    refine ⟨rfl, rfl, ?_⟩
    exact readFile_writeFile_same fs _ encoded
      (namesFile_join d _ (image_name_isFileName p t ht))

/-- C4, amended, at a `csv` file with target `csv`. -/
theorem convertFile_same_extension_witness :
    (toLowerCase (extname "up/t.CSV") ∉ [".png", ".jpg", ".jpeg"] →
      (convertFile sampleLibs [("up/t.CSV", [97, 44, 98])] "up/t.CSV" "csv" "out").result
        = .ok [join "out" (basename "up/t.CSV" "")] ∧
      (convertFile sampleLibs [("up/t.CSV", [97, 44, 98])] "up/t.CSV" "csv" "out").allWritten
        = [join "out" (basename "up/t.CSV" "")] ∧
      readFile (convertFile sampleLibs [("up/t.CSV", [97, 44, 98])] "up/t.CSV" "csv" "out").fs
        (join "out" (basename "up/t.CSV" "")) = .ok [97, 44, 98]) ∧
    (toLowerCase (extname "up/t.CSV") ∈ [".png", ".jpg", ".jpeg"] →
      (convertFile sampleLibs [("up/t.CSV", [97, 44, 98])] "up/t.CSV" "csv" "out").strategy
        = some .image ∧
      ∀ encoded,
        sampleLibs.sharp "up/t.CSV" [97, 44, 98] "csv"
          (join "out" (basename "up/t.CSV" (extname "up/t.CSV") ++ "." ++ "csv")) = .ok encoded →
        (convertFile sampleLibs [("up/t.CSV", [97, 44, 98])] "up/t.CSV" "csv" "out").result
          = .ok [join "out" (basename "up/t.CSV" (extname "up/t.CSV") ++ "." ++ "csv")] ∧
        (convertFile sampleLibs [("up/t.CSV", [97, 44, 98])] "up/t.CSV" "csv" "out").allWritten
          = [join "out" (basename "up/t.CSV" (extname "up/t.CSV") ++ "." ++ "csv")] ∧
        readFile (convertFile sampleLibs [("up/t.CSV", [97, 44, 98])] "up/t.CSV" "csv" "out").fs
          (join "out" (basename "up/t.CSV" (extname "up/t.CSV") ++ "." ++ "csv"))
          = .ok encoded) :=
  convertFile_same_extension sampleLibs [("up/t.CSV", [97, 44, 98])] "up/t.CSV" "csv" "out"
    [97, 44, 98] (by decide) (by decide)

/-- The two cases of C4 at concrete files: a `CSV` file with target `csv` is
copied byte for byte, and a `JPG` file with target `jpg` is written as
`a.jpg` with the bytes the image library produced. -/
theorem convertFile_same_extension_examples :
    readFile (convertFile sampleLibs [("up/t.CSV", [97, 44, 98])] "up/t.CSV" "csv" "out").fs
      "out/t.CSV" = .ok [97, 44, 98] ∧
    (convertFile sampleLibs [("up/a.JPG", [1, 2])] "up/a.JPG" "jpg" "out").result
      = .ok ["out/a.jpg"] ∧
    readFile (convertFile sampleLibs [("up/a.JPG", [1, 2])] "up/a.JPG" "jpg" "out").fs
      "out/a.jpg" = .ok [3, 1, 2] := by
  decide

/-- Whatever the workbook, `convertFile` with target `csv` resolves with an
empty list of paths and before any write has completed: one write per sheet
has been started and is still in flight. -/
theorem convertFile_xlsx_returns_before_writes (L : Libs) (fs : FS) (p d : String)
    (data : Data) (workbook : Workbook)
    (hext : toLowerCase (extname p) = ".xlsx")
    (h : readFile fs p = .ok data) (hw : L.xlsxRead data = .ok workbook) :
    (convertFile L fs p "csv" d).result = .ok [] ∧
    (convertFile L fs p "csv" d).fs = fs ∧
    (convertFile L fs p "csv" d).written = [] ∧
    (convertFile L fs p "csv" d).pending =
      workbook.sheets.map fun worksheet =>
        (sheetOutPath p d worksheet.id, L.utf8Encode (sheetCsv worksheet.rows)) := by
  have hm : firstMatch routingTable p "csv" = some .xlsxToCsv := by
    rw [firstMatch_routingTable, hext]
    decide
  rw [convertFile_eq, hm]
  dsimp only
  rw [convertXlsxToCsv_ok L fs p d data workbook h hw]
  exact ⟨rfl, rfl, rfl, rfl⟩

/-- C5, at a workbook with two sheets: the call resolves with no path at all
and with no write completed; the two writes, to `b_1.csv` and `b_2.csv`, are
still in flight, and only once they have completed does the array hold the
two paths. -/
theorem convertFile_two_sheets_returns_no_path :
    (convertFile twoSheetLibs [("up/b.xlsx", [7])] "up/b.xlsx" "csv" "out").result = .ok [] ∧
    (convertFile twoSheetLibs [("up/b.xlsx", [7])] "up/b.xlsx" "csv" "out").fs
      = [("up/b.xlsx", [7])] ∧
    (convertFile twoSheetLibs [("up/b.xlsx", [7])] "up/b.xlsx" "csv" "out").pending.map Prod.fst
      = ["out/b_1.csv", "out/b_2.csv"] ∧
    (convertFile twoSheetLibs [("up/b.xlsx", [7])] "up/b.xlsx" "csv" "out").settle.result
      = .ok ["out/b_1.csv", "out/b_2.csv"] := by
  decide

/-- C6, counterexample: a PDF that already lies in the output directory is
converted successfully, and the one path written is the input path itself. -/
theorem pdfStub_writes_the_input_file :
    (convertFile sampleLibs [("out/a.pdf", [1])] "out/a.pdf" "png" "out").result
      = .ok ["out/a.pdf"] ∧
    "out/a.pdf" ∈ (convertFile sampleLibs [("out/a.pdf", [1])] "out/a.pdf" "png" "out").allWritten := by
  decide

/-- C6, amended: when `convertFile` succeeds, every path it writes (the writes
still in flight included) and every path it returns is `outputDir` joined with
a single file name derived from the input's base name, a name without a slash
and other than `.` and `..`, so the path lies directly inside `outputDir`; and
the input path is not among the paths written unless it is itself `outputDir`
joined with the input's base name. -/
theorem convertFile_writes_inside_outputDir (L : Libs) (fs : FS) (p t d : String)
    (paths : List String) (hok : (convertFile L fs p t d).result = .ok paths) :
    (∀ q, q ∈ (convertFile L fs p t d).allWritten ∨ q ∈ paths → isOutputOf p d q) ∧
    (p ≠ join d (basename p "") → p ∉ (convertFile L fs p t d).allWritten) := by
  have hall := convertFile_outputs L fs p t d paths hok
  refine ⟨fun q hq => hall q (List.mem_append.2 hq), ?_⟩
  intro hne hmem
  obtain ⟨name, hname, hp, _, _⟩ := hall p (List.mem_append.2 (Or.inl hmem))
  have hb : basename p "" = name := by
    conv_lhs => rw [hp]
    exact basename_join d name hname
  exact hne (by rw [hb]; exact hp)

/-- C6, amended, at a spreadsheet with two sheets. -/
theorem convertFile_writes_inside_outputDir_witness :
    (∀ q, q ∈ (convertFile twoSheetLibs [("up/b.xlsx", [7])] "up/b.xlsx" "csv" "out").allWritten
        ∨ q ∈ ([] : List String) → isOutputOf "up/b.xlsx" "out" q) ∧
    ("up/b.xlsx" ≠ join "out" (basename "up/b.xlsx" "") →
      "up/b.xlsx" ∉
        (convertFile twoSheetLibs [("up/b.xlsx", [7])] "up/b.xlsx" "csv" "out").allWritten) :=
  convertFile_writes_inside_outputDir twoSheetLibs [("up/b.xlsx", [7])] "up/b.xlsx" "csv" "out"
    [] (by decide)

/-- C7: the CSV text of a sheet is its rows joined by a line feed, each row's
fields joined by a comma; the field of a cell with a value is its string form
between double quotes with every double quote in it doubled, whatever the
string, and the field of a `null` or `undefined` cell (or of a hole of the row)
is the empty string. This is the text the spreadsheet-to-CSV strategy hands to
`fs.writeFile` for each sheet. -/
theorem sheetCsv_is_quoted_csv (rows : List (List Cell)) :
    sheetCsv rows = specCsv rows ∧
    (∀ str, csvField (.value str) = quotedField str ∧
      (csvField (.value str)).data.head? = some dquote ∧
      (csvField (.value str)).data.getLast? = some dquote) ∧
    csvField .null = "" ∧ csvField .undefined = "" ∧ csvField .hole = "" ∧
    (∀ (L : Libs) (fs : FS) (p d : String) (data : Data) (workbook : Workbook),
      readFile fs p = .ok data → L.xlsxRead data = .ok workbook →
      (convertXlsxToCsv L fs p d).pending.map Prod.snd =
        workbook.sheets.map fun worksheet => L.utf8Encode (specCsv worksheet.rows)) := by
  refine ⟨sheetCsv_eq_specCsv rows, ?_, rfl, rfl, rfl, ?_⟩
  · intro str
    refine ⟨csvField_eq_specField (.value str), rfl, ?_⟩
    show ((dquote :: doubleQuotes str.data) ++ [dquote]).getLast? = some dquote
    rw [List.getLast?_append_of_ne_nil _ (by simp)]
    rfl
  · intro L fs p d data workbook h hw
    rw [convertXlsxToCsv_ok L fs p d data workbook h hw]
    simp only [List.map_map]
    apply List.map_congr_left
    intro ws _
    simp only [Function.comp, sheetCsv_eq_specCsv]

/-- C7, at a row with a quote inside a value and a `null` cell. -/
theorem sheetCsv_example :
    sheetCsv [[.value "a", .null, .value ⟨['x', dquote, 'y']⟩], [.value "1"]]
      = ⟨[dquote, 'a', dquote, ',', ',', dquote, 'x', dquote, dquote, 'y', dquote, '\n',
          dquote, '1', dquote]⟩ := by
  decide

/-- C8, counterexample: the rows `[[" a", "b"]]` have no comma, double quote or
line break in any field, yet the round trip yields `"a","b"`: the leading
space of the text is lost to `trim`. -/
theorem roundTrip_loses_leading_space :
    properRows [[" a", "b"]] ∧ plainFields [[" a", "b"]] ∧
    roundTripCsv (csvText [[" a", "b"]]) = [quotedCsvText [["a", "b"]]] ∧
    roundTripCsv (csvText [[" a", "b"]]) ≠ [quotedCsvText [[" a", "b"]]] := by
  refine ⟨?_, ?_, ?_, ?_⟩
  · unfold properRows
    decide
  · unfold plainFields
    decide
  · decide
  · decide

/-- C8, amended: for rows of fields without comma, double quote or line break
whose CSV text `trim` leaves unchanged (no white space at its start or end),
the round trip yields the same rows in the same order with each field wrapped
in double quotes. Concretely: converting a file with that text to XLSX writes
one workbook file; when the spreadsheet library reads that file back as the
workbook it was given, converting it to CSV writes, once its write has
completed, one file whose content is the quoted text. -/
theorem csv_xlsx_csv_round_trip (L : Libs) (fs : FS) (p d1 d2 : String) (data bytes : Data)
    (rows : List (List String))
    (hrows : properRows rows) (hplain : plainFields rows)
    (htrim : trim (csvText rows) = csvText rows)
    (hext : toLowerCase (extname p) = ".csv")
    (hfile : readFile fs p = .ok data)
    (htext : L.utf8Decode data = csvText rows)
    (hwrite : L.xlsxWrite (csvWorkbook rows) = .ok bytes)
    (hread : L.xlsxRead bytes = .ok (csvWorkbook rows)) :
    roundTripCsv (csvText rows) = [quotedCsvText rows] ∧
    ∃ xlsxPath csvPath,
      (convertFile L fs p "xlsx" d1).result = .ok [xlsxPath] ∧
      (convertFile L (convertFile L fs p "xlsx" d1).fs xlsxPath "csv" d2).settle.result
        = .ok [csvPath] ∧
      readFile (convertFile L (convertFile L fs p "xlsx" d1).fs xlsxPath "csv" d2).settle.fs
        csvPath = .ok (L.utf8Encode (quotedCsvText rows)) := by
  refine ⟨roundTripCsv_csvText rows hrows hplain htrim, ?_⟩
  have hm1 : firstMatch routingTable p "xlsx" = some .csvToXlsx := by
    rw [firstMatch_routingTable, hext]
    decide
  have hparse : csvRows (trim (L.utf8Decode data)) = rows := by
    rw [htext, htrim, csvRows_csvText rows hrows hplain]
  have h1 : convertFile L fs p "xlsx" d1 =
      Outcome.wrote fs .csvToXlsx (join d1 (basename p (extname p) ++ ".xlsx")) bytes := by
    rw [convertFile_eq, hm1]
    exact convertCsvToXlsx_ok L fs p d1 data bytes rows hfile hparse hwrite
  have hextne : (extname p).data ≠ [] := by
    intro e
    have : toLowerCase (extname p) = "" := by
      unfold toLowerCase
      rw [e]
      rfl
    rw [this] at hext
    revert hext
    decide
  have hstem := (basename_extname_stem p hextne).1
  have hslash := basename_extname_slashfree p
  have hname : isFileName (basename p (extname p) ++ ".xlsx") = true :=
    isFileName_append _ ".xlsx" hslash (by decide) (by decide)
  have hread2 : readFile (writeFile fs (join d1 (basename p (extname p) ++ ".xlsx")) bytes)
      (join d1 (basename p (extname p) ++ ".xlsx")) = .ok bytes :=
    readFile_writeFile_same fs _ bytes (namesFile_join d1 _ hname)
  have hext2 : toLowerCase (extname (join d1 (basename p (extname p) ++ ".xlsx"))) = ".xlsx" := by
    rw [extname_join_xlsx d1 _ hstem hslash]
    decide
  obtain ⟨r1, r2, r3, r4⟩ := convertFile_xlsx_returns_before_writes L
    (writeFile fs (join d1 (basename p (extname p) ++ ".xlsx")) bytes)
    (join d1 (basename p (extname p) ++ ".xlsx")) d2 bytes (csvWorkbook rows) hext2 hread2 hread
  refine ⟨join d1 (basename p (extname p) ++ ".xlsx"),
    sheetOutPath (join d1 (basename p (extname p) ++ ".xlsx")) d2 1, ?_, ?_, ?_⟩
  · rw [h1]
    rfl
  · rw [h1]
    simp only [Outcome.wrote, Outcome.settle, r1, r4, csvWorkbook, List.map_cons, List.map_nil,
      Except.map, List.nil_append]
  · rw [h1]
    simp only [Outcome.wrote, Outcome.settle, r2, r4, csvWorkbook, List.map_cons, List.map_nil,
      List.foldl_cons, List.foldl_nil, sheetCsv_values rows hplain]
    exact readFile_writeFile_same _ _ _ (namesFile_sheetOutPath _ d2 1)

/-- C8, amended, at the rows `a,b` and `1,2`. -/
theorem csv_xlsx_csv_round_trip_witness :
    roundTripCsv (csvText [["a", "b"], ["1", "2"]]) = [quotedCsvText [["a", "b"], ["1", "2"]]] ∧
    ∃ xlsxPath csvPath,
      (convertFile storingLibs [("up/t.csv", [97, 44, 98, 10, 49, 44, 50])] "up/t.csv" "xlsx"
        "out").result = .ok [xlsxPath] ∧
      (convertFile storingLibs
        (convertFile storingLibs [("up/t.csv", [97, 44, 98, 10, 49, 44, 50])] "up/t.csv" "xlsx"
          "out").fs xlsxPath "csv" "back").settle.result = .ok [csvPath] ∧
      readFile (convertFile storingLibs
        (convertFile storingLibs [("up/t.csv", [97, 44, 98, 10, 49, 44, 50])] "up/t.csv" "xlsx"
          "out").fs xlsxPath "csv" "back").settle.fs csvPath
        = .ok (storingLibs.utf8Encode (quotedCsvText [["a", "b"], ["1", "2"]])) :=
  csv_xlsx_csv_round_trip storingLibs [("up/t.csv", [97, 44, 98, 10, 49, 44, 50])] "up/t.csv"
    "out" "back" [97, 44, 98, 10, 49, 44, 50] [0] [["a", "b"], ["1", "2"]]
    (by unfold properRows; decide) (by unfold plainFields; decide) (by decide) (by decide)
    (by decide) (by decide) (by decide) (by decide)

/-- C9: when a file was uploaded, the job directory was created and the
conversion resolved with the paths `paths`, the handler responds 200 with the
generated job identifier and one entry per path, in the same order, whose name
is the base name of the path and whose url is `/outputs/`, the job identifier,
`/` and that base name. The job identifier is a UUID, as `uuidv4()` returns. -/
theorem handleConvert_success (L : Libs) (E : ServerEnv) (fs : FS) (req : Request)
    (inputPath : String) (paths : List String)
    (huuid : isUuid E.uuidv4 = true)
    (hfile : req.file = some inputPath)
    (hmkdir : E.mkdir (join (OUTPUT_DIR E) E.uuidv4) = .ok ())
    (hres : (convertFile L fs inputPath req.targetFormat (join (OUTPUT_DIR E) E.uuidv4)).result
      = .ok paths) :
    (handleConvert L E fs req).response =
      { status := 200
        body := .converted E.uuidv4 (paths.map fun p =>
          { name := basename p "", url := "/outputs/" ++ E.uuidv4 ++ "/" ++ basename p "" }) } ∧
    (handleConvert L E fs req).actions =
      [.mkdir (join (OUTPUT_DIR E) E.uuidv4),
       .convert inputPath req.targetFormat (join (OUTPUT_DIR E) E.uuidv4)] := by
  unfold handleConvert
  simp only [hfile, hmkdir, hres,
    basename_join (OUTPUT_DIR E) E.uuidv4 (isUuid_isFileName _ huuid), and_self]

/-- C9, at a text file copied through. -/
theorem handleConvert_success_witness :
    (handleConvert sampleLibs sampleEnv [("/srv/app/uploads/17-notes.txt", [1, 2])]
        { file := some "/srv/app/uploads/17-notes.txt", targetFormat := "txt" }).response =
      { status := 200
        body := .converted sampleEnv.uuidv4
          (["/srv/app/outputs/123e4567-e89b-42d3-a456-426614174000/17-notes.txt"].map fun p =>
            { name := basename p ""
              url := "/outputs/" ++ sampleEnv.uuidv4 ++ "/" ++ basename p "" }) } ∧
    (handleConvert sampleLibs sampleEnv [("/srv/app/uploads/17-notes.txt", [1, 2])]
        { file := some "/srv/app/uploads/17-notes.txt", targetFormat := "txt" }).actions =
      [.mkdir (join (OUTPUT_DIR sampleEnv) sampleEnv.uuidv4),
       .convert "/srv/app/uploads/17-notes.txt" "txt"
         (join (OUTPUT_DIR sampleEnv) sampleEnv.uuidv4)] :=
  handleConvert_success sampleLibs sampleEnv [("/srv/app/uploads/17-notes.txt", [1, 2])]
    { file := some "/srv/app/uploads/17-notes.txt", targetFormat := "txt" }
    "/srv/app/uploads/17-notes.txt"
    ["/srv/app/outputs/123e4567-e89b-42d3-a456-426614174000/17-notes.txt"]
    (by decide) rfl rfl (by decide)

/-- C10, counterexample: the document renderer raises an error whose message
is empty; the handler responds 500, but the `error` of the body is the text
`Conversion failed`, not the error's message. -/
theorem handleConvert_empty_message :
    (convertFile silentFailLibs [("/srv/app/uploads/17-a.docx", [1])]
        "/srv/app/uploads/17-a.docx" "pdf" (join (OUTPUT_DIR sampleEnv) sampleEnv.uuidv4)).result
      = .error (.library "") ∧
    (ConvError.library "").message = "" ∧
    (handleConvert silentFailLibs sampleEnv [("/srv/app/uploads/17-a.docx", [1])]
        { file := some "/srv/app/uploads/17-a.docx", targetFormat := "pdf" }).response
      = { status := 500, body := .error "Conversion failed" } := by
  decide

/-- C10, amended: without a file the handler responds 400 with
`No file uploaded` and makes no call at all; when directory creation or the
dispatcher raises an error it responds 500 with the error's message, or with
`Conversion failed` when that message is empty; and its status is 200 in every
other case. -/
theorem handleConvert_errors (L : Libs) (E : ServerEnv) (fs : FS) (req : Request) :
    (req.file = none →
      (handleConvert L E fs req).response = { status := 400, body := .error "No file uploaded" } ∧
      (handleConvert L E fs req).actions = []) ∧
    (∀ inputPath err, req.file = some inputPath →
      E.mkdir (join (OUTPUT_DIR E) E.uuidv4) = .error err →
      (handleConvert L E fs req).response =
        { status := 500
          body := .error (if err.message = "" then "Conversion failed" else err.message) } ∧
      (handleConvert L E fs req).actions = [.mkdir (join (OUTPUT_DIR E) E.uuidv4)]) ∧
    (∀ inputPath err, req.file = some inputPath →
      E.mkdir (join (OUTPUT_DIR E) E.uuidv4) = .ok () →
      (convertFile L fs inputPath req.targetFormat (join (OUTPUT_DIR E) E.uuidv4)).result
        = .error err →
      (handleConvert L E fs req).response =
        { status := 500
          body := .error (if err.message = "" then "Conversion failed" else err.message) }) ∧
    ((handleConvert L E fs req).response.status ≠ 200 →
      req.file = none ∨
      (∃ err, E.mkdir (join (OUTPUT_DIR E) E.uuidv4) = .error err) ∨
      (∃ inputPath err, req.file = some inputPath ∧
        (convertFile L fs inputPath req.targetFormat (join (OUTPUT_DIR E) E.uuidv4)).result
          = .error err)) := by
  refine ⟨?_, ?_, ?_, ?_⟩
  · intro h
    unfold handleConvert
    simp only [h, and_self]
  · intro inputPath err h hm
    unfold handleConvert
    simp only [h, hm, errorText, and_self]
  · intro inputPath err h hm hr
    unfold handleConvert
    simp only [h, hm, hr, errorText]
  · intro hstatus
    cases hf : req.file with
    | none => exact Or.inl rfl
    | some inputPath =>
      right
      cases hm : E.mkdir (join (OUTPUT_DIR E) E.uuidv4) with
      | error err => exact Or.inl ⟨err, rfl⟩
      | ok u =>
        right
        cases hr : (convertFile L fs inputPath req.targetFormat
            (join (OUTPUT_DIR E) E.uuidv4)).result with
        | error err => exact ⟨inputPath, err, rfl, hr⟩
        | ok paths =>
          exfalso
          apply hstatus
          unfold handleConvert
          simp only [hf, hm, hr]

end SimpleConverter
